import Mathlib

/-!
# Verification of perfetto's `TrackEventTracker`
(`src/trace_processor/importers/proto/track_event_tracker.cc`)

Shallow embedding of the track-identity resolver: the reservation store
(`Reserve*Track`), the memoized resolution engine (`GetDescriptorTrack`,
`GetDescriptorTrackImpl`, `ResolveDescriptorTrack`,
`GetOrCreateDefaultDescriptorTrack`) and the incremental counter decoder
(`ConvertToAbsoluteCounterValue`, `OnIncrementalStateCleared`).

Modelling choices:
* `uint64_t` uuids, `StringId`s, pids/tids, utids/upids and row ids become
  `Nat`; `int64_t` timestamps and counter values become `Int` (no overflow is
  exercised by the claims).
* `StringId` is `Nat` with `kNullStringId = 0` standing for the interned
  null string.
* The `std::map` members become association lists with `std::map::insert`
  (keep-existing) and `operator[]` (insert-or-assign) semantics made explicit.
* The diagnostics counter (`IncrementStats(track_event_tokenizer_errors)`)
  is write-only in the source; each mutating operation returns the number of
  increments it performed instead of storing the counter in the state.
* The mutual recursion of the resolution engine is driven by a structural
  fuel parameter; the source bounds the recursion by the explicit
  descendant-set guard (`kMaxAncestors = 10`), which we prove keeps a fixed
  fuel (64) from ever running out.
* `PERFETTO_CHECK` / optional-dereference points become explicit
  `ResolutionError` results (`checkFail` for the reservation check in
  `GetDescriptorTrack`, `derefFail` for the other dereferences).
* External collaborators (`ProcessTracker`, `TrackTracker` interning, the
  columnar track tables, `ArgsTracker`) are not under `src/`; they are
  modelled from the spec's interface contracts (sections 4.3, 4.5, 6):
  get-or-create maps with fresh ids, a single row list for the track table
  with a kind tag per variant, and an append-only provenance-args list.
-/

namespace TrackEvent

/-- Interned string id; `0` models `kNullStringId`. -/
abbrev StringId := Nat

def kNullStringId : StringId := 0

/-- Modelled from the spec: the reserved sentinel "default" uuid
(`TrackEventTracker::kDefaultDescriptorTrackUuid`, declared in the header,
which is not under `src/`). The source identifies it with the track
"with no uuid" (`if (!parent_track_id && uuid)`), so it is `0`. -/
def kDefaultDescriptorTrackUuid : Nat := 0

/-- Modelled from the spec: interned id of the "Default Track" name
(`default_descriptor_track_name_`). Any fixed non-null id works. -/
def default_descriptor_track_name : StringId := 1

/-- `TrackEventTracker::DescriptorTrackReservation` (declared in the header,
not under `src/`); fields and defaults modelled from the spec's
TrackReservation data model (§3) and their uses in the source. -/
structure DescriptorTrackReservation where
  parent_uuid : Nat := 0
  pid : Option Nat := none
  tid : Option Nat := none
  min_timestamp : Int := 0
  name : StringId := kNullStringId
  is_counter : Bool := false
  category : StringId := kNullStringId
  unit_multiplier : Int := 0
  is_incremental : Bool := false
  packet_sequence_id : Nat := 0
  latest_value : Int := 0
  deriving Repr, DecidableEq

/-- Modelled from the spec: the same-track predicate
(`DescriptorTrackReservation::IsForSameTrack`, declared in the header, not
under `src/`): "identical kind and identical defining identifiers (parent
uuid, pid, tid, or counter-specific fields, as applicable — NOT name, NOT
timestamp)". -/
def DescriptorTrackReservation.IsForSameTrack
    (a b : DescriptorTrackReservation) : Bool :=
  a.parent_uuid == b.parent_uuid && a.pid == b.pid && a.tid == b.tid &&
  a.is_counter == b.is_counter && a.category == b.category &&
  a.unit_multiplier == b.unit_multiplier &&
  a.is_incremental == b.is_incremental &&
  a.packet_sequence_id == b.packet_sequence_id

/-- The variant of a row of the columnar track store: the track table and its
per-kind sub-tables (global/thread/process, slice/counter). -/
inductive TrackKind where
  | global
  | globalCounter
  | thread (utid : Nat)
  | threadCounter (utid : Nat)
  | process (upid : Nat)
  | processCounter (upid : Nat)
  deriving Repr, DecidableEq

/-- A row of the track table: its (settable) name and its variant. The row id
is the row's index in the table. -/
structure TrackRow where
  name : StringId
  kind : TrackKind
  deriving Repr, DecidableEq

/-- Provenance metadata attached to a freshly resolved row (the
`AddArgsTo` calls: source id = original uuid, optional parent row,
optional category). -/
structure ProvenanceArgs where
  source_id : Nat
  parent_track_id : Option Nat
  category : Option StringId
  deriving Repr, DecidableEq

/-- Association-list lookup (first binding wins), modelling `map::find`. -/
def lookupA {α : Type} : List (Nat × α) → Nat → Option α
  | [], _ => none
  | (k', v) :: rest, k => if k' = k then some v else lookupA rest k

/-- Association-list insert-or-assign, modelling `map::operator[]` assignment
and in-place mutation through an iterator. -/
def setA {α : Type} : List (Nat × α) → Nat → α → List (Nat × α)
  | [], k, v => [(k, v)]
  | (k', v') :: rest, k, v =>
      if k' = k then (k, v) :: rest else (k', v') :: setA rest k v

/-- The mutable state of a `TrackEventTracker` together with the modelled
state of its external collaborators. -/
structure TrackerState where
  /-- `reserved_descriptor_tracks_` : uuid → reservation. -/
  reserved_descriptor_tracks : List (Nat × DescriptorTrackReservation) := []
  /-- `resolved_descriptor_tracks_` : uuid → row id (the memoization table). -/
  resolved_descriptor_tracks : List (Nat × Nat) := []
  /-- The columnar track table (all variants share the row-id space). -/
  tracks : List TrackRow := []
  /-- `descriptor_uuids_by_utid_`. -/
  descriptor_uuids_by_utid : List (Nat × Nat) := []
  /-- `descriptor_uuids_by_upid_`. -/
  descriptor_uuids_by_upid : List (Nat × Nat) := []
  /-- Provenance args per row id (the `ArgsTracker` model). -/
  args : List (Nat × ProvenanceArgs) := []
  /-- Modelled from the spec: `TrackTracker::InternThreadTrack` memo
  (utid → row id). -/
  interned_thread_tracks : List (Nat × Nat) := []
  /-- Modelled from the spec: `TrackTracker::InternProcessTrack` memo
  (upid → row id). -/
  interned_process_tracks : List (Nat × Nat) := []
  /-- Modelled from the spec: `ProcessTracker` thread table (tid → utid). -/
  thread_map : List (Nat × Nat) := []
  /-- Modelled from the spec: next fresh utid. -/
  next_utid : Nat := 0
  /-- Modelled from the spec: `ProcessTracker` process table (pid → upid). -/
  process_map : List (Nat × Nat) := []
  /-- Modelled from the spec: next fresh upid. -/
  next_upid : Nat := 0
  deriving Repr, DecidableEq

def emptyState : TrackerState := {}

/-! ## Reservation Store (`Reserve*Track`) -/

/-- The candidate reservation built at the top of
`ReserveDescriptorProcessTrack`. -/
def processCandidate (name : StringId) (pid : Nat) (timestamp : Int) :
    DescriptorTrackReservation :=
  { min_timestamp := timestamp, pid := some pid, name := name }

/-- The candidate reservation built at the top of
`ReserveDescriptorThreadTrack`. -/
def threadCandidate (parent_uuid : Nat) (name : StringId) (pid tid : Nat)
    (timestamp : Int) : DescriptorTrackReservation :=
  { min_timestamp := timestamp, parent_uuid := parent_uuid,
    pid := some pid, tid := some tid, name := name }

/-- The candidate reservation built at the top of
`ReserveDescriptorCounterTrack` (the sequence id is only bound when the
counter is incremental). -/
def counterCandidate (parent_uuid : Nat) (name category : StringId)
    (unit_multiplier : Int) (is_incremental : Bool)
    (packet_sequence_id : Nat) : DescriptorTrackReservation :=
  { parent_uuid := parent_uuid, is_counter := true, name := name,
    category := category, unit_multiplier := unit_multiplier,
    is_incremental := is_incremental,
    packet_sequence_id :=
      if is_incremental then packet_sequence_id else 0 }

/-- The candidate reservation built at the top of
`ReserveDescriptorChildTrack`. -/
def childCandidate (parent_uuid : Nat) (name : StringId) :
    DescriptorTrackReservation :=
  { parent_uuid := parent_uuid, name := name }

/-- `TrackEventTracker::ReserveDescriptorProcessTrack`. Returns the new state
and the number of `track_event_tokenizer_errors` increments. -/
def ReserveDescriptorProcessTrack (s : TrackerState) (uuid : Nat)
    (name : StringId) (pid : Nat) (timestamp : Int) : TrackerState × Nat :=
  let reservation := processCandidate name pid timestamp
  match lookupA s.reserved_descriptor_tracks uuid with
  | none =>
      ({ s with reserved_descriptor_tracks :=
          s.reserved_descriptor_tracks ++ [(uuid, reservation)] }, 0)
  | some existing =>
      if existing.IsForSameTrack reservation then
        ({ s with reserved_descriptor_tracks :=
            (setA s.reserved_descriptor_tracks uuid
              { existing with
                  min_timestamp := min existing.min_timestamp timestamp }) }, 0)
      else (s, 1)

/-- `TrackEventTracker::ReserveDescriptorThreadTrack`. -/
def ReserveDescriptorThreadTrack (s : TrackerState) (uuid parent_uuid : Nat)
    (name : StringId) (pid tid : Nat) (timestamp : Int) :
    TrackerState × Nat :=
  let reservation := threadCandidate parent_uuid name pid tid timestamp
  match lookupA s.reserved_descriptor_tracks uuid with
  | none =>
      ({ s with reserved_descriptor_tracks :=
          s.reserved_descriptor_tracks ++ [(uuid, reservation)] }, 0)
  | some existing =>
      if existing.IsForSameTrack reservation then
        ({ s with reserved_descriptor_tracks :=
            (setA s.reserved_descriptor_tracks uuid
              { existing with
                  min_timestamp := min existing.min_timestamp timestamp }) }, 0)
      else (s, 1)

/-- `TrackEventTracker::ReserveDescriptorCounterTrack`. Note: on a matching
redeclaration the source returns without touching the reservation (there is
no `min_timestamp` merge here). -/
def ReserveDescriptorCounterTrack (s : TrackerState) (uuid parent_uuid : Nat)
    (name category : StringId) (unit_multiplier : Int)
    (is_incremental : Bool) (packet_sequence_id : Nat) :
    TrackerState × Nat :=
  let reservation :=
    counterCandidate parent_uuid name category unit_multiplier
      is_incremental packet_sequence_id
  match lookupA s.reserved_descriptor_tracks uuid with
  | none =>
      ({ s with reserved_descriptor_tracks :=
          s.reserved_descriptor_tracks ++ [(uuid, reservation)] }, 0)
  | some existing =>
      if existing.IsForSameTrack reservation then (s, 0)
      else (s, 1)

/-- `TrackEventTracker::ReserveDescriptorChildTrack`. Like the counter case,
a matching redeclaration changes nothing. -/
def ReserveDescriptorChildTrack (s : TrackerState) (uuid parent_uuid : Nat)
    (name : StringId) : TrackerState × Nat :=
  let reservation := childCandidate parent_uuid name
  match lookupA s.reserved_descriptor_tracks uuid with
  | none =>
      ({ s with reserved_descriptor_tracks :=
          s.reserved_descriptor_tracks ++ [(uuid, reservation)] }, 0)
  | some existing =>
      if existing.IsForSameTrack reservation then (s, 0)
      else (s, 1)

/-! ## External collaborators (modelled from the spec) -/

/-- Modelled from the spec: `ProcessTracker::UpdateThread(tid, pid)` — fetch
or create the logical thread entity for `tid` (§4.3, §6). -/
def UpdateThread (s : TrackerState) (tid _pid : Nat) : Nat × TrackerState :=
  match lookupA s.thread_map tid with
  | some utid => (utid, s)
  | none =>
      (s.next_utid,
       { s with thread_map := s.thread_map ++ [(tid, s.next_utid)],
                next_utid := s.next_utid + 1 })

/-- Modelled from the spec: `ProcessTracker::StartNewThread` — forcibly start
a fresh logical thread for `tid`, rebinding the identity map (§4.3). -/
def StartNewThread (s : TrackerState) (tid : Nat) : Nat × TrackerState :=
  (s.next_utid,
   { s with thread_map := (setA s.thread_map tid s.next_utid),
            next_utid := s.next_utid + 1 })

/-- Modelled from the spec: `ProcessTracker::GetOrCreateProcess(pid)`. -/
def GetOrCreateProcess (s : TrackerState) (pid : Nat) : Nat × TrackerState :=
  match lookupA s.process_map pid with
  | some upid => (upid, s)
  | none =>
      (s.next_upid,
       { s with process_map := s.process_map ++ [(pid, s.next_upid)],
                next_upid := s.next_upid + 1 })

/-- Modelled from the spec: `ProcessTracker::StartNewProcess(..., pid, ...)`. -/
def StartNewProcess (s : TrackerState) (pid : Nat) : Nat × TrackerState :=
  (s.next_upid,
   { s with process_map := (setA s.process_map pid s.next_upid),
            next_upid := s.next_upid + 1 })

/-- Modelled from the spec: `TrackTracker::InternThreadTrack(utid)` — reuse
the thread track row already created for this utid, or insert one. -/
def InternThreadTrack (s : TrackerState) (utid : Nat) : Nat × TrackerState :=
  match lookupA s.interned_thread_tracks utid with
  | some t => (t, s)
  | none =>
      let t := s.tracks.length
      (t, { s with
              tracks := s.tracks ++
                [{ name := kNullStringId, kind := .thread utid }],
              interned_thread_tracks :=
                s.interned_thread_tracks ++ [(utid, t)] })

/-- Modelled from the spec: `TrackTracker::InternProcessTrack(upid)`. -/
def InternProcessTrack (s : TrackerState) (upid : Nat) : Nat × TrackerState :=
  match lookupA s.interned_process_tracks upid with
  | some t => (t, s)
  | none =>
      let t := s.tracks.length
      (t, { s with
              tracks := s.tracks ++
                [{ name := kNullStringId, kind := .process upid }],
              interned_process_tracks :=
                s.interned_process_tracks ++ [(upid, t)] })

/-! ## Resolution Engine -/

/-- The descendant list carried through parent resolution (`nullptr` ↦ `[]`). -/
def descList (d : Option (List Nat)) : List Nat := d.getD []

/-- The `set_track_name_and_return` lambda of `ResolveDescriptorTrack`
(lines 208–218): if the reservation declared a name, write it onto the row
(the source dereferences `IndexOf`; every row id produced below is in range,
so the out-of-range fallback is dead). -/
def setTrackNameAndReturn (s : TrackerState)
    (reservation : DescriptorTrackReservation) (track_id : Nat) :
    Nat × TrackerState :=
  if reservation.name = kNullStringId then (track_id, s)
  else
    match s.tracks.get? track_id with
    | none => (track_id, s)
    | some row =>
        (track_id,
         { s with tracks :=
             (s.tracks.set track_id { row with name := reservation.name }) })

/-- Failure modes of the embedded resolution engine: `fuelOut` is fuel
exhaustion of the embedding (the source instead relies on the descendant-set
guard; see `getDescriptorTrack_no_fuelOut`), `checkFail` is the
`PERFETTO_CHECK` on the reservation lookup in `GetDescriptorTrack`
(line 177), `derefFail` covers the remaining assertion-like dereferences. -/
inductive ResolutionError where
  | fuelOut
  | checkFail
  | derefFail
  deriving Repr, DecidableEq

mutual

/-- `TrackEventTracker::GetDescriptorTrackImpl` (lines 187–202): memo lookup,
then reservation lookup, then resolution followed by memoization. -/
def GetDescriptorTrackImpl : Nat → TrackerState → Nat → Option (List Nat) →
    Except ResolutionError (Option Nat × TrackerState)
  | 0, _, _, _ => .error .fuelOut
  | fuel + 1, s, uuid, descendent_uuids =>
    match lookupA s.resolved_descriptor_tracks uuid with
    | some track_id => .ok (some track_id, s)
    | none =>
      match lookupA s.reserved_descriptor_tracks uuid with
      | none => .ok (none, s)
      | some reservation =>
        match ResolveDescriptorTrack fuel s uuid reservation
                descendent_uuids with
        | .error e => .error e
        | .ok (track_id, s1) =>
            .ok (some track_id,
                 { s1 with resolved_descriptor_tracks :=
                     (setA s1.resolved_descriptor_tracks uuid track_id) })
  termination_by structural fuel _ _ _ => fuel

/-- `TrackEventTracker::ResolveDescriptorTrack` (lines 204–403). The
descendant list is passed immutably: the source pushes `uuid` before the
recursive call and pops after it, so the callee sees `desc ++ [uuid]` and
every later use in this frame (the default-track loop guard, line 379) sees
the original `descendent_uuids` again (reset to null when it was owned). -/
def ResolveDescriptorTrack : Nat → TrackerState → Nat →
    DescriptorTrackReservation → Option (List Nat) →
    Except ResolutionError (Nat × TrackerState)
  | 0, _, _, _, _ => .error .fuelOut
  | fuel + 1, s, uuid, reservation, descendent_uuids =>
    -- lines 220–258: resolve the parent chain under the descendant-set guard
    let parentStep : Except ResolutionError (Option Nat × TrackerState) :=
      if reservation.parent_uuid ≠ 0 then
        let d := descList descendent_uuids ++ [uuid]
        if d.length > 10 then .ok (none, s)
        else if reservation.parent_uuid ∈ d then .ok (none, s)
        else GetDescriptorTrackImpl fuel s reservation.parent_uuid (some d)
      else .ok (none, s)
    match parentStep with
    | .error e => .error e
    | .ok (parent_track_id, s1) =>
      match reservation.tid with
      | some tid =>
        -- lines 260–289: primary thread track (no provenance args)
        let (utid, s2) := UpdateThread s1 tid (reservation.pid.getD 0)
        match lookupA s2.descriptor_uuids_by_utid utid with
        | none =>
            let s3 := { s2 with descriptor_uuids_by_utid :=
                          s2.descriptor_uuids_by_utid ++ [(utid, uuid)] }
            let ts := InternThreadTrack s3 utid
            .ok (setTrackNameAndReturn ts.2 reservation ts.1)
        | some _old_uuid =>
            -- tid reuse: start a new thread and rebind
            let us := StartNewThread s2 tid
            let us2 := UpdateThread us.2 tid (reservation.pid.getD 0)
            if us2.1 = us.1 then
              let s5 := { us2.2 with descriptor_uuids_by_utid :=
                            (setA us2.2.descriptor_uuids_by_utid us.1 uuid) }
              let ts := InternThreadTrack s5 us.1
              .ok (setTrackNameAndReturn ts.2 reservation ts.1)
            else .error .derefFail  -- PERFETTO_CHECK, line 282
      | none =>
      match reservation.pid with
      | some pid =>
        -- lines 291–316: primary process track (no provenance args)
        let (upid, s2) := GetOrCreateProcess s1 pid
        match lookupA s2.descriptor_uuids_by_upid upid with
        | none =>
            let s3 := { s2 with descriptor_uuids_by_upid :=
                          s2.descriptor_uuids_by_upid ++ [(upid, uuid)] }
            let ps := InternProcessTrack s3 upid
            .ok (setTrackNameAndReturn ps.2 reservation ps.1)
        | some _old_uuid =>
            -- pid reuse: start a new process and rebind
            let us := StartNewProcess s2 pid
            let s4 := { us.2 with descriptor_uuids_by_upid :=
                          (setA us.2.descriptor_uuids_by_upid us.1 uuid) }
            let ps := InternProcessTrack s4 us.1
            .ok (setTrackNameAndReturn ps.2 reservation ps.1)
      | none =>
        -- lines 318–359: placement under a resolved thread/process parent
        let placed : Option (Nat × TrackerState) :=
          match parent_track_id with
          | none => none
          | some ptid =>
            match s1.tracks.get? ptid with
            | some row =>
              match row.kind with
              | .thread utid =>
                  some (s1.tracks.length,
                        { s1 with tracks := s1.tracks ++
                            [{ name := kNullStringId,
                               kind := if reservation.is_counter then
                                   .threadCounter utid
                                 else .thread utid }] })
              | .process upid =>
                  some (s1.tracks.length,
                        { s1 with tracks := s1.tracks ++
                            [{ name := kNullStringId,
                               kind := if reservation.is_counter then
                                   .processCounter upid
                                 else .process upid }] })
              | _ => none
            | none => none
        let createStep :
            Except ResolutionError (Nat × Option Nat × TrackerState) :=
          match placed with
          | some (t, s2) => .ok (t, parent_track_id, s2)
          | none =>
            -- lines 361–390: create a global (counter) track
            let t := s1.tracks.length
            let s2 := { s1 with tracks := s1.tracks ++
                          [{ name := kNullStringId,
                             kind := if reservation.is_counter then
                                 .globalCounter
                               else .global }] }
            if parent_track_id = none then
              if uuid ≠ kDefaultDescriptorTrackUuid then
                -- line 379: loop guard on the default track's own chain
                if kDefaultDescriptorTrackUuid ∈ descList descendent_uuids then
                  .ok (t, none, s2)
                else
                  match GetOrCreateDefaultDescriptorTrack fuel s2 with
                  | .error e => .error e
                  | .ok (dt, s3) => .ok (t, some dt, s3)
              else .ok (t, none, s2)
            else .ok (t, parent_track_id, s2)
        match createStep with
        | .error e => .error e
        | .ok (t, parentFinal, s4) =>
          -- lines 392–401: provenance args
          let s5 := { s4 with args := s4.args ++
                       [(t, { source_id := uuid,
                              parent_track_id := parentFinal,
                              category :=
                                if reservation.category ≠ kNullStringId then
                                  some reservation.category
                                else none })] }
          .ok (setTrackNameAndReturn s5 reservation t)
  termination_by structural fuel _ _ _ _ => fuel

/-- `TrackEventTracker::GetOrCreateDefaultDescriptorTrack` (lines 405–417).
The inner `ReserveDescriptorChildTrack` call always inserts (the preceding
lookup just failed), so its dropped diagnostics delta is 0. -/
def GetOrCreateDefaultDescriptorTrack : Nat → TrackerState →
    Except ResolutionError (Nat × TrackerState)
  | 0, _ => .error .fuelOut
  | fuel + 1, s =>
    match GetDescriptorTrack fuel s kDefaultDescriptorTrackUuid
            kNullStringId with
    | .error e => .error e
    | .ok (some track_id, s1) => .ok (track_id, s1)
    | .ok (none, s1) =>
      let s2 := (ReserveDescriptorChildTrack s1 kDefaultDescriptorTrackUuid 0
                  default_descriptor_track_name).1
      match GetDescriptorTrack fuel s2 kDefaultDescriptorTrackUuid
              kNullStringId with
      | .error e => .error e
      | .ok (some track_id, s3) => .ok (track_id, s3)
      | .ok (none, _) => .error .derefFail  -- deref of line 416
  termination_by structural fuel _ => fuel

/-- `TrackEventTracker::GetDescriptorTrack` (lines 161–185): resolve, then
possibly backfill the event name. -/
def GetDescriptorTrack : Nat → TrackerState → Nat → StringId →
    Except ResolutionError (Option Nat × TrackerState)
  | 0, _, _, _ => .error .fuelOut
  | fuel + 1, s, uuid, event_name =>
    match GetDescriptorTrackImpl fuel s uuid none with
    | .error e => .error e
    | .ok (none, s1) => .ok (none, s1)
    | .ok (some track_id, s1) =>
      if event_name = kNullStringId then .ok (some track_id, s1)
      else
        match s1.tracks.get? track_id with
        | none => .error .derefFail  -- deref of line 171
        | some row =>
          if row.name ≠ kNullStringId then .ok (some track_id, s1)
          else
            -- PERFETTO_CHECK on the reservation lookup, line 177
            match lookupA s1.reserved_descriptor_tracks uuid with
            | none => .error .checkFail
            | some reservation =>
              if reservation.pid.isSome || reservation.tid.isSome ||
                 reservation.is_counter then
                .ok (some track_id, s1)
              else
                .ok (some track_id,
                     { s1 with tracks :=
                         (s1.tracks.set track_id
                           { row with name := event_name }) })
  termination_by structural fuel _ _ _ => fuel

end

/-! ## Counter Decoder -/

/-- `TrackEventTracker::ConvertToAbsoluteCounterValue`. -/
def ConvertToAbsoluteCounterValue (s : TrackerState)
    (counter_track_uuid packet_sequence_id : Nat) (value : Int) :
    Option Int × TrackerState :=
  match lookupA s.reserved_descriptor_tracks counter_track_uuid with
  | none => (none, s)
  | some reservation =>
      if !reservation.is_counter then (none, s)
      else
        let value :=
          if reservation.unit_multiplier > 0 then
            value * reservation.unit_multiplier
          else value
        if reservation.is_incremental then
          if reservation.packet_sequence_id ≠ packet_sequence_id then
            (none, s)
          else
            let nv := reservation.latest_value + value
            (some nv,
             { s with reserved_descriptor_tracks :=
                 (setA s.reserved_descriptor_tracks counter_track_uuid
                   { reservation with latest_value := nv }) })
        else (some value, s)

/-- `TrackEventTracker::OnIncrementalStateCleared`. -/
def OnIncrementalStateCleared (s : TrackerState)
    (packet_sequence_id : Nat) : TrackerState :=
  { s with reserved_descriptor_tracks :=
      s.reserved_descriptor_tracks.map fun p =>
        if p.2.is_counter && p.2.is_incremental &&
           p.2.packet_sequence_id == packet_sequence_id then
          (p.1, { p.2 with latest_value := 0 })
        else p }

end TrackEvent

namespace TrackEvent

/-! ## Association-list lemmas -/

theorem lookupA_setA_self {α : Type} (l : List (Nat × α)) (k : Nat) (v : α) :
    lookupA (setA l k v) k = some v := by
  induction l with
  | nil => simp [setA, lookupA]
  | cons p rest ih =>
      by_cases h : p.1 = k
      · simp [setA, h, lookupA]
      · simp [setA, h, lookupA, ih]

theorem lookupA_setA_ne {α : Type} (l : List (Nat × α)) (k k' : Nat) (v : α)
    (h : k' ≠ k) : lookupA (setA l k v) k' = lookupA l k' := by
  induction l with
  | nil => simp [setA, lookupA, Ne.symm h]
  | cons p rest ih =>
      by_cases hp : p.1 = k
      · simp [setA, hp, lookupA, Ne.symm h]
      · simp [setA, hp, lookupA, ih]

theorem lookupA_append_self {α : Type} (l : List (Nat × α)) (k : Nat) (v : α)
    (h : lookupA l k = none) : lookupA (l ++ [(k, v)]) k = some v := by
  induction l with
  | nil => simp [lookupA]
  | cons p rest ih =>
      by_cases hp : p.1 = k
      · simp [lookupA, hp] at h
      · simp only [lookupA, hp, if_false] at h
        simp [lookupA, hp, ih h]

theorem lookupA_append_of_some {α : Type} (l l' : List (Nat × α)) (k : Nat)
    (v : α) (h : lookupA l k = some v) : lookupA (l ++ l') k = some v := by
  induction l with
  | nil => simp [lookupA] at h
  | cons p rest ih =>
      by_cases hp : p.1 = k
      · simp only [lookupA, hp, if_true] at h
        simp [lookupA, hp, h]
      · simp only [lookupA, hp, if_false] at h
        simp [lookupA, hp, ih h]

theorem lookupA_append_ne {α : Type} (l : List (Nat × α)) (k k' : Nat) (v : α)
    (h : k' ≠ k) : lookupA (l ++ [(k, v)]) k' = lookupA l k' := by
  induction l with
  | nil => simp [lookupA, Ne.symm h]
  | cons p rest ih =>
      by_cases hp : p.1 = k'
      · simp [lookupA, hp]
      · simp [lookupA, hp, ih]

end TrackEvent

namespace TrackEvent

/-! ## Memoization lemmas -/

/-- Whenever `GetDescriptorTrackImpl` succeeds with a row, that row is in the
memo table of the post-state (it was either found there or just stored). -/
theorem impl_memoizes (f : Nat) (s : TrackerState) (uuid : Nat)
    (d : Option (List Nat)) (t : Nat) (s' : TrackerState)
    (h : GetDescriptorTrackImpl f s uuid d = .ok (some t, s')) :
    lookupA s'.resolved_descriptor_tracks uuid = some t := by
  match f with
  | 0 => simp [GetDescriptorTrackImpl] at h
  | f + 1 =>
    simp only [GetDescriptorTrackImpl] at h
    split at h
    · rename_i track_id hm
      simp only [Except.ok.injEq, Prod.mk.injEq, Option.some.injEq] at h
      obtain ⟨h1, h2⟩ := h
      subst h1; subst h2
      exact hm
    · rename_i hm
      split at h
      · simp at h
      · rename_i reservation hres
        split at h
        · simp at h
        · rename_i track_id s1 hr
          simp only [Except.ok.injEq, Prod.mk.injEq, Option.some.injEq] at h
          obtain ⟨h1, h2⟩ := h
          subst h1
          rw [← h2]
          exact lookupA_setA_self _ _ _

end TrackEvent

namespace TrackEvent

/-! ## C1: resolution is idempotent and memoized -/

/-- C1: for every uuid, `resolve` is idempotent: if a call of
`GetDescriptorTrackImpl` returns `(r, s')`, then a second call on `s'` with
the same uuid (and any positive fuel — the memo hit consumes no recursion)
returns exactly `(r, s')`: the same row and a completely unchanged state, so
none of reservation lookup, parent resolution, placement, naming or
provenance attachment is re-run; when a row was produced it is exactly the
memoized row. -/
theorem resolve_idempotent_memoized (f g : Nat) (s : TrackerState)
    (uuid : Nat) (r : Option Nat) (s' : TrackerState)
    (h : GetDescriptorTrackImpl f s uuid none = .ok (r, s')) :
    GetDescriptorTrackImpl (g + 1) s' uuid none = .ok (r, s') ∧
    (∀ t, r = some t → lookupA s'.resolved_descriptor_tracks uuid = some t) := by
  constructor
  · match f with
    | 0 => simp [GetDescriptorTrackImpl] at h
    | f + 1 =>
      simp only [GetDescriptorTrackImpl] at h
      split at h
      · rename_i track_id hm
        simp only [Except.ok.injEq, Prod.mk.injEq] at h
        obtain ⟨h1, h2⟩ := h
        subst h2
        subst h1
        simp [GetDescriptorTrackImpl, hm]
      · rename_i hm
        split at h
        · rename_i hres
          simp only [Except.ok.injEq, Prod.mk.injEq] at h
          obtain ⟨h1, h2⟩ := h
          subst h2
          subst h1
          simp [GetDescriptorTrackImpl, hm, hres]
        · rename_i reservation hres
          split at h
          · simp at h
          · rename_i track_id s1 hr
            simp only [Except.ok.injEq, Prod.mk.injEq] at h
            obtain ⟨h1, h2⟩ := h
            subst h1
            rw [← h2]
            simp [GetDescriptorTrackImpl, lookupA_setA_self]
  · intro t ht
    subst ht
    exact impl_memoizes f s uuid none t s' h

end TrackEvent

namespace TrackEvent

/-- Decidable equality for `Except` results, used to evaluate the concrete
scenarios. -/
instance {e a : Type} [DecidableEq e] [DecidableEq a] :
    DecidableEq (Except e a) := fun x y =>
  match x, y with
  | .ok v, .ok w =>
      if h : v = w then isTrue (by rw [h]) else isFalse (by simp [h])
  | .error v, .error w =>
      if h : v = w then isTrue (by rw [h]) else isFalse (by simp [h])
  | .ok _, .error _ => isFalse (by simp)
  | .error _, .ok _ => isFalse (by simp)

/-- A small concrete tracker: one child track declared with uuid 5. -/
def oneChildState : TrackerState :=
  (ReserveDescriptorChildTrack emptyState 5 0 0).1

/-- The state after resolving uuid 5 in `oneChildState`. -/
def oneChildResolved : TrackerState :=
  match GetDescriptorTrackImpl 8 oneChildState 5 none with
  | .ok (_, s) => s
  | .error _ => emptyState

/-- Witness for `resolve_idempotent_memoized` at a concrete resolved track. -/
theorem resolve_idempotent_memoized_witness :
    GetDescriptorTrackImpl 8 oneChildResolved 5 none =
      .ok (some 0, oneChildResolved) ∧
    (∀ t, (some 0 : Option Nat) = some t →
      lookupA oneChildResolved.resolved_descriptor_tracks 5 = some t) :=
  resolve_idempotent_memoized 8 7 oneChildState 5 (some 0) oneChildResolved
    (by decide)

end TrackEvent

namespace TrackEvent

/-! ## C2: mismatching redeclarations are rejected -/

/-- C2: when a uuid is already bound to a reservation and a later
`Reserve*Track` call builds a candidate that fails the same-track predicate,
the call leaves the whole tracker state (in particular the stored
reservation) unchanged and reports exactly one ingestion-inconsistency
increment (`track_event_tokenizer_errors`); consequently resolving any uuid
afterwards gives exactly the outcome it would have given before the rejected
declaration. -/
theorem mismatched_redeclaration_rejected (s : TrackerState) (uuid : Nat)
    (ex : DescriptorTrackReservation)
    (hex : lookupA s.reserved_descriptor_tracks uuid = some ex) :
    (∀ name pid ts,
      ex.IsForSameTrack (processCandidate name pid ts) = false →
        ReserveDescriptorProcessTrack s uuid name pid ts = (s, 1)) ∧
    (∀ pu name pid tid ts,
      ex.IsForSameTrack (threadCandidate pu name pid tid ts) = false →
        ReserveDescriptorThreadTrack s uuid pu name pid tid ts = (s, 1)) ∧
    (∀ pu name cat um inc seq,
      ex.IsForSameTrack (counterCandidate pu name cat um inc seq) = false →
        ReserveDescriptorCounterTrack s uuid pu name cat um inc seq =
          (s, 1)) ∧
    (∀ pu name,
      ex.IsForSameTrack (childCandidate pu name) = false →
        ReserveDescriptorChildTrack s uuid pu name = (s, 1)) ∧
    (∀ name pid ts f u2 en,
      ex.IsForSameTrack (processCandidate name pid ts) = false →
        GetDescriptorTrack f
            (ReserveDescriptorProcessTrack s uuid name pid ts).1 u2 en =
          GetDescriptorTrack f s u2 en) ∧
    (∀ pu name cat um inc seq f u2 en,
      ex.IsForSameTrack (counterCandidate pu name cat um inc seq) = false →
        GetDescriptorTrack f
            (ReserveDescriptorCounterTrack s uuid pu name cat um inc seq).1
            u2 en =
          GetDescriptorTrack f s u2 en) := by
  refine ⟨?_, ?_, ?_, ?_, ?_, ?_⟩
  · intro name pid ts hmis
    simp [ReserveDescriptorProcessTrack, hex, hmis]
  · intro pu name pid tid ts hmis
    simp [ReserveDescriptorThreadTrack, hex, hmis]
  · intro pu name cat um inc seq hmis
    simp [ReserveDescriptorCounterTrack, hex, hmis]
  · intro pu name hmis
    simp [ReserveDescriptorChildTrack, hex, hmis]
  · intro name pid ts f u2 en hmis
    simp [ReserveDescriptorProcessTrack, hex, hmis]
  · intro pu name cat um inc seq f u2 en hmis
    simp [ReserveDescriptorCounterTrack, hex, hmis]

/-- A concrete tracker holding a process-track reservation for uuid 1
(pid 7, timestamp 10). -/
def oneProcessState : TrackerState :=
  (ReserveDescriptorProcessTrack emptyState 1 0 7 10).1

/-- Witness for `mismatched_redeclaration_rejected`: redeclaring uuid 1 as a
thread track (different kind) or as a child track is rejected with one
diagnostic increment and an untouched state. -/
theorem mismatched_redeclaration_rejected_witness :
    ReserveDescriptorThreadTrack oneProcessState 1 0 0 7 3 5 =
      (oneProcessState, 1) ∧
    ReserveDescriptorChildTrack oneProcessState 1 3 0 =
      (oneProcessState, 1) ∧
    GetDescriptorTrack 8
        (ReserveDescriptorProcessTrack oneProcessState 1 0 9 5).1 1 0 =
      GetDescriptorTrack 8 oneProcessState 1 0 := by
  have h := mismatched_redeclaration_rejected oneProcessState 1
    (processCandidate 0 7 10) (by decide)
  exact ⟨h.2.1 0 0 7 3 5 (by decide), h.2.2.2.1 3 0 (by decide),
         h.2.2.2.2.1 0 9 5 8 1 0 (by decide)⟩

end TrackEvent

namespace TrackEvent

/-! ## C3: incremental counter scenario -/

/-- Counter track uuid 1, incremental, unit multiplier 2, bound to packet
sequence 5. -/
def incrCounterState : TrackerState :=
  (ReserveDescriptorCounterTrack emptyState 1 0 0 0 2 true 5).1

def incrStep1 : Option Int × TrackerState :=
  ConvertToAbsoluteCounterValue incrCounterState 1 5 3

def incrStep2 : Option Int × TrackerState :=
  ConvertToAbsoluteCounterValue incrStep1.2 1 5 4

def incrStep3 : Option Int × TrackerState :=
  ConvertToAbsoluteCounterValue incrStep2.2 1 9 1

def incrStep4 : Option Int × TrackerState :=
  ConvertToAbsoluteCounterValue
    (OnIncrementalStateCleared incrStep3.2 5) 1 5 2

/-- C3: on the incremental counter declared with multiplier 2 on sequence 5,
sample raw 3 gives absolute 6, then raw 4 gives 14; a sample from
sequence 9 is rejected with no result, mutating nothing (the running total
stays 14); after clearing incremental state for sequence 5, sample raw 2
gives absolute 4. -/
theorem incremental_counter_scenario :
    incrStep1.1 = some 6 ∧
    incrStep2.1 = some 14 ∧
    incrStep3.1 = none ∧
    incrStep3.2 = incrStep2.2 ∧
    (lookupA incrStep3.2.reserved_descriptor_tracks 1).map
        (fun r => r.latest_value) = some 14 ∧
    incrStep4.1 = some 4 := by
  decide

end TrackEvent

namespace TrackEvent

/-! ## C7 and C8: `min_timestamp` merging -/

/-- C7 (amended): on a matching redeclaration, the process and thread
declare operations merge `min_timestamp` by taking the minimum of the stored
and the newly declared timestamp; the counter and child declare operations
carry no timestamp and return with the stored reservation (its
`min_timestamp` included) completely unchanged. -/
theorem min_timestamp_merge_on_match (s : TrackerState) (uuid : Nat)
    (ex : DescriptorTrackReservation)
    (hex : lookupA s.reserved_descriptor_tracks uuid = some ex) :
    (∀ name pid ts,
      ex.IsForSameTrack (processCandidate name pid ts) = true →
        lookupA (ReserveDescriptorProcessTrack s uuid name pid
            ts).1.reserved_descriptor_tracks uuid =
          some { ex with min_timestamp := min ex.min_timestamp ts }) ∧
    (∀ pu name pid tid ts,
      ex.IsForSameTrack (threadCandidate pu name pid tid ts) = true →
        lookupA (ReserveDescriptorThreadTrack s uuid pu name pid tid
            ts).1.reserved_descriptor_tracks uuid =
          some { ex with min_timestamp := min ex.min_timestamp ts }) ∧
    (∀ pu name cat um inc seq,
      ex.IsForSameTrack (counterCandidate pu name cat um inc seq) = true →
        ReserveDescriptorCounterTrack s uuid pu name cat um inc seq =
          (s, 0)) ∧
    (∀ pu name,
      ex.IsForSameTrack (childCandidate pu name) = true →
        ReserveDescriptorChildTrack s uuid pu name = (s, 0)) := by
  refine ⟨?_, ?_, ?_, ?_⟩
  · intro name pid ts hsame
    simp [ReserveDescriptorProcessTrack, hex, hsame, lookupA_setA_self]
  · intro pu name pid tid ts hsame
    simp [ReserveDescriptorThreadTrack, hex, hsame, lookupA_setA_self]
  · intro pu name cat um inc seq hsame
    simp [ReserveDescriptorCounterTrack, hex, hsame]
  · intro pu name hsame
    simp [ReserveDescriptorChildTrack, hex, hsame]

/-- A child track (uuid 1, parent 2) already declared once. -/
def oneChildParent2State : TrackerState :=
  (ReserveDescriptorChildTrack emptyState 1 2 5).1

/-- Counterexample refuting C7 as stated: the claim asserts that each of the
four declare operations merges `min_timestamp` on a matching redeclaration,
but `ReserveDescriptorChildTrack` (like the counter variant) takes no
timestamp at all and performs no update whatsoever: a matching
redeclaration returns the state unchanged, so no `min_timestamp` merge
happens there. -/
theorem min_timestamp_merge_counterexample :
    ReserveDescriptorChildTrack oneChildParent2State 1 2 7 =
      (oneChildParent2State, 0) ∧
    ReserveDescriptorCounterTrack
        (ReserveDescriptorCounterTrack emptyState 9 0 0 0 0 false 0).1
        9 0 0 0 0 false 0 =
      ((ReserveDescriptorCounterTrack emptyState 9 0 0 0 0 false 0).1, 0) := by
  decide

/-- Witness for `min_timestamp_merge_on_match`: a matching process-track
redeclaration of uuid 1 at timestamp 3 lowers the stored minimum from 10
to 3, and a matching child-track redeclaration changes nothing. -/
theorem min_timestamp_merge_on_match_witness :
    lookupA (ReserveDescriptorProcessTrack oneProcessState 1 0 7
        3).1.reserved_descriptor_tracks 1 =
      some { processCandidate 0 7 10 with min_timestamp := min 10 3 } ∧
    ReserveDescriptorChildTrack oneChildParent2State 1 2 9 =
      (oneChildParent2State, 0) := by
  have h1 := min_timestamp_merge_on_match oneProcessState 1
    (processCandidate 0 7 10) (by decide)
  have h2 := min_timestamp_merge_on_match oneChildParent2State 1
    (childCandidate 2 5) (by decide)
  exact ⟨h1.1 0 7 3 (by decide), h2.2.2.2 2 9 (by decide)⟩

/-- C8 (amended): a redeclaration of a uuid that is rejected for declaring a
different kind leaves the stored reservation — its `min_timestamp`
included — exactly as it was: the rejected declaration's timestamp is
discarded, so `min_timestamp` tracks the minimum over the matching
declarations only. -/
theorem rejected_timestamp_discarded (s : TrackerState) (uuid : Nat)
    (ex : DescriptorTrackReservation)
    (hex : lookupA s.reserved_descriptor_tracks uuid = some ex) :
    (∀ name pid ts,
      ex.IsForSameTrack (processCandidate name pid ts) = false →
        lookupA (ReserveDescriptorProcessTrack s uuid name pid
            ts).1.reserved_descriptor_tracks uuid = some ex) ∧
    (∀ pu name pid tid ts,
      ex.IsForSameTrack (threadCandidate pu name pid tid ts) = false →
        lookupA (ReserveDescriptorThreadTrack s uuid pu name pid tid
            ts).1.reserved_descriptor_tracks uuid = some ex) := by
  constructor
  · intro name pid ts hmis
    simp [ReserveDescriptorProcessTrack, hex, hmis]
  · intro pu name pid tid ts hmis
    simp [ReserveDescriptorThreadTrack, hex, hmis]

/-- Counterexample refuting C8 as stated: uuid 1 is declared as a process
track at timestamp 10, then redeclared as a thread track (different kind)
at timestamp 5. The claim says the rejected declaration's timestamp 5 is
still merged into `min_timestamp`; in fact the stored minimum stays 10. -/
theorem rejected_timestamp_merged_counterexample :
    (lookupA (ReserveDescriptorThreadTrack oneProcessState 1 0 0 7 3
        5).1.reserved_descriptor_tracks 1).map
      (fun r => r.min_timestamp) = some 10 ∧
    ¬ ((lookupA (ReserveDescriptorThreadTrack oneProcessState 1 0 0 7 3
        5).1.reserved_descriptor_tracks 1).map
      (fun r => r.min_timestamp) = some (min 10 5)) := by
  decide

/-- Witness for `rejected_timestamp_discarded` at the same concrete input. -/
theorem rejected_timestamp_discarded_witness :
    lookupA (ReserveDescriptorThreadTrack oneProcessState 1 0 0 7 3
        5).1.reserved_descriptor_tracks 1 = some (processCandidate 0 7 10) :=
  (rejected_timestamp_discarded oneProcessState 1 (processCandidate 0 7 10)
    (by decide)).2 0 0 7 3 5 (by decide)

end TrackEvent

namespace TrackEvent

/-! ## C4: parent cycle A→B→A -/

/-- Two child tracks whose `parent_uuid` fields form the cycle 1→2→1. -/
def cycleState : TrackerState :=
  (ReserveDescriptorChildTrack
    (ReserveDescriptorChildTrack emptyState 1 2 0).1 2 1 0).1

/-- The state after resolving uuid 1 in `cycleState`. -/
def cycleResolved : TrackerState :=
  match GetDescriptorTrack 64 cycleState 1 0 with
  | .ok (_, s) => s
  | .error _ => emptyState

/-- Counterexample refuting C4 as stated: with the declared parent cycle
1→2→1, resolving track 1 succeeds (row 2), but row 2's provenance carries
`parent_track_id = some 0` (track 2's row) — not "no parent" — and track 2's
row 0 carries `parent_track_id = some 1` (the default global track's row),
also not "no parent". -/
theorem cycle_no_parent_counterexample :
    GetDescriptorTrack 64 cycleState 1 0 = .ok (some 2, cycleResolved) ∧
    (lookupA cycleResolved.args 2).map (fun a => a.parent_track_id) =
      some (some 0) ∧
    ¬ ((lookupA cycleResolved.args 2).map (fun a => a.parent_track_id) =
      some none) ∧
    (lookupA cycleResolved.args 0).map (fun a => a.parent_track_id) =
      some (some 1) := by
  decide

/-- C4 (amended): with the declared cycle 1→2→1, `resolve(1)` and
`resolve(2)` each succeed — no error and no non-termination. The cycle is
truncated at the track whose parent edge would close it: track 2, resolved
during track 1's parent resolution, has its declared parent abandoned and —
being a parentless global track — is parented under the lazily created
default global track (row 1, itself parentless); track 1 then resolves as a
child of track 2's row. -/
theorem cycle_truncation_amended :
    GetDescriptorTrack 64 cycleState 1 0 = .ok (some 2, cycleResolved) ∧
    GetDescriptorTrack 64 cycleResolved 2 0 = .ok (some 0, cycleResolved) ∧
    lookupA cycleResolved.resolved_descriptor_tracks 2 = some 0 ∧
    (lookupA cycleResolved.args 0).map (fun a => a.parent_track_id) =
      some (some 1) ∧
    lookupA cycleResolved.resolved_descriptor_tracks
      kDefaultDescriptorTrackUuid = some 1 ∧
    (lookupA cycleResolved.args 1).map (fun a => a.parent_track_id) =
      some none ∧
    (lookupA cycleResolved.args 2).map (fun a => a.parent_track_id) =
      some (some 0) := by
  decide

/-! ## C5: the descendant-set guard (concrete chain) -/

/-- Twelve declared child tracks: uuid k has parent k+1 for k = 1..11
(a chain of 11 parent links above track 1), uuid 12 a root. -/
def chainState : TrackerState :=
  (ReserveDescriptorChildTrack
    ((List.range' 1 11).foldl
      (fun s k => (ReserveDescriptorChildTrack s k (k + 1) 0).1)
      emptyState)
    12 0 0).1

/-- The state after resolving the deepest track (uuid 1) of the chain. -/
def chainResolved : TrackerState :=
  match GetDescriptorTrack 64 chainState 1 0 with
  | .ok (_, s) => s
  | .error _ => emptyState

end TrackEvent

namespace TrackEvent

/-- Classifier for the embedding's fuel-exhaustion outcome. -/
def isFuelOut : Except ResolutionError (Option Nat × TrackerState) → Bool
  | .error .fuelOut => true
  | _ => false

/-- Fuel budget sufficient for `GetDescriptorTrackImpl` at uuid `uuid` with
descendant list `d`: once the default-track uuid 0 is on the path (or is the
uuid itself), the default-track creation (line 387) is unreachable, and each
remaining chain level costs two frames; otherwise one nested default-track
resolution (cost 24) may still happen. -/
def implBudget (uuid : Nat) (d : Option (List Nat)) : Nat :=
  if uuid = kDefaultDescriptorTrackUuid ∨
     kDefaultDescriptorTrackUuid ∈ descList d then
    22 - 2 * (descList d).length
  else 46 - 2 * (descList d).length

theorem implBudget_pos (uuid : Nat) (d : Option (List Nat))
    (hlen : (descList d).length ≤ 10) : 2 ≤ implBudget uuid d := by
  unfold implBudget
  split <;> omega

theorem implBudget_le (uuid : Nat) (d : Option (List Nat)) :
    implBudget uuid d ≤ 46 := by
  unfold implBudget
  split <;> omega

/-- Pushing the current uuid onto the descendant list costs at most two fuel
frames of budget (given that the pushed list passes the guard). -/
theorem implBudget_child (uuid p : Nat) (d : Option (List Nat))
    (hlen : (descList d ++ [uuid]).length ≤ 10) :
    implBudget p (some (descList d ++ [uuid])) + 2 ≤ implBudget uuid d := by
  have hn : (descList d).length + 1 ≤ 10 := by
    have h := hlen
    rw [List.length_append, List.length_singleton] at h
    exact h
  have hmem : kDefaultDescriptorTrackUuid ∈ descList d ++ [uuid] ↔
      kDefaultDescriptorTrackUuid ∈ descList d ∨
        uuid = kDefaultDescriptorTrackUuid := by
    simp [eq_comm]
  unfold implBudget
  rw [show descList (some (descList d ++ [uuid])) = descList d ++ [uuid]
    from rfl]
  rw [List.length_append, List.length_singleton]
  split
  · split
    · omega
    · omega
  · split
    · exfalso
      rename_i hchild hcaller
      exact hchild (Or.inr (hmem.mpr (Or.symm hcaller)))
    · omega

end TrackEvent

namespace TrackEvent

/-- The descendant-set guard (`kMaxAncestors = 10`), not the call depth
budget, bounds the recursion of the resolution engine: with the stated
budgets no call runs out of fuel, whatever the tracker state. -/
theorem noFuelOut : ∀ fuel : Nat,
    (∀ s uuid d, (descList d).length ≤ 10 → implBudget uuid d ≤ fuel →
      GetDescriptorTrackImpl fuel s uuid d ≠ .error .fuelOut) ∧
    (∀ s uuid r d, (descList d).length ≤ 10 →
      implBudget uuid d ≤ fuel + 1 →
      ResolveDescriptorTrack fuel s uuid r d ≠ .error .fuelOut) ∧
    (∀ s, 24 ≤ fuel →
      GetOrCreateDefaultDescriptorTrack fuel s ≠ .error .fuelOut) ∧
    (∀ s uuid en, 1 + implBudget uuid none ≤ fuel →
      GetDescriptorTrack fuel s uuid en ≠ .error .fuelOut) := by
  intro fuel
  induction fuel with
  | zero =>
      refine ⟨?_, ?_, ?_, ?_⟩
      · intro s uuid d hlen hbud
        have := implBudget_pos uuid d hlen
        omega
      · intro s uuid r d hlen hbud h
        -- fuel 0 is impossible: the budget is at least 2
        have := implBudget_pos uuid d hlen
        omega
      · intro s h24
        omega
      · intro s uuid en hb
        have := implBudget_pos uuid none (by simp [descList])
        omega
  | succ f ih =>
      obtain ⟨ihI, ihR, ihD, ihG⟩ := ih
      refine ⟨?_, ?_, ?_, ?_⟩
      · -- GetDescriptorTrackImpl
        intro s uuid d hlen hbud h
        simp only [GetDescriptorTrackImpl] at h
        split at h
        · simp at h
        · split at h
          · simp at h
          · split at h
            · rename_i e heq
              simp only [Except.error.injEq] at h
              subst h
              exact ihR s uuid _ d hlen (by omega) heq
            · simp at h
      · -- ResolveDescriptorTrack
        intro s uuid r d hlen hbud h
        simp only [ResolveDescriptorTrack] at h
        split at h
        · -- parentStep returned an error
          rename_i e heq
          simp only [Except.error.injEq] at h
          subst h
          split at heq
          · split at heq
            · simp at heq
            · split at heq
              · simp at heq
              · rename_i hpar hgt hmem2
                have hlen2 : (descList d ++ [uuid]).length ≤ 10 := by
                  omega
                refine ihI s r.parent_uuid
                  (some (descList d ++ [uuid])) ?_ ?_ heq
                · simpa [descList] using hlen2
                · have hc := implBudget_child uuid r.parent_uuid d hlen2
                  omega
          · simp at heq
        · -- parentStep ok
          rename_i parent_track_id s1 heq
          split at h
          · -- thread branch
            split at h
            · simp at h
            · split at h
              · simp at h
              · simp at h
          · split at h
            · -- process branch
              split at h
              · simp at h
              · simp at h
            · -- child/global branch
              split at h
              · -- createStep returned an error
                rename_i e heq2
                simp only [Except.error.injEq] at h
                subst h
                split at heq2
                · simp at heq2
                · split at heq2
                  · split at heq2
                    · rename_i hu
                      split at heq2
                      · simp at heq2
                      · rename_i hm
                        split at heq2
                        · rename_i e2 heq3
                          simp only [Except.error.injEq] at heq2
                          subst heq2
                          refine ihD _ ?_ heq3
                          have hb2 : implBudget uuid d = 46 -
                              2 * (descList d).length := by
                            unfold implBudget
                            rw [if_neg]
                            intro hcontra
                            rcases hcontra with hcontra | hcontra
                            · exact hu hcontra
                            · exact hm hcontra
                          omega
                        · simp at heq2
                    · simp at heq2
                  · simp at heq2
              · simp at h
      · -- GetOrCreateDefaultDescriptorTrack
        intro s h24 h
        simp only [GetOrCreateDefaultDescriptorTrack] at h
        have hbd : 1 + implBudget kDefaultDescriptorTrackUuid none ≤ f := by
          have : implBudget kDefaultDescriptorTrackUuid none = 22 := by
            simp [implBudget, descList]
          omega
        split at h
        · rename_i e heq
          simp only [Except.error.injEq] at h
          subst h
          exact ihG _ _ _ hbd heq
        · simp at h
        · split at h
          · rename_i e heq
            simp only [Except.error.injEq] at h
            subst h
            exact ihG _ _ _ hbd heq
          · simp at h
          · simp at h
      · -- GetDescriptorTrack
        intro s uuid en hb h
        simp only [GetDescriptorTrack] at h
        split at h
        · rename_i e heq
          simp only [Except.error.injEq] at h
          subst h
          refine ihI s uuid none (by simp [descList]) (by omega) heq
        · simp at h
        · split at h
          · simp at h
          · split at h
            · simp at h
            · split at h
              · simp at h
              · split at h
                · simp at h
                · split at h
                  · simp at h
                  · simp at h

end TrackEvent

namespace TrackEvent

/-- C5: the parent-chain recursion is bounded by the explicit descendant-set
guard (limit 10), so resolution never exhausts the fuel of the embedding on
any input (first conjunct, for the canonical entry fuel 64); in particular,
resolving the deepest track (uuid 1) of the chain 1→2→…→12 of 11 nested
parents succeeds and truncates the chain at the 10th ancestor (uuid 11):
uuid 11's row 0 is created as if no parent were given — it is parented under
the default track's row 1 instead of under uuid 12's track — and uuid 12,
though reserved, is never resolved. -/
theorem descendant_guard_bounds_recursion :
    (∀ (s : TrackerState) (uuid : Nat) (en : StringId),
      isFuelOut (GetDescriptorTrack 64 s uuid en) = false) ∧
    GetDescriptorTrack 64 chainState 1 0 = .ok (some 11, chainResolved) ∧
    lookupA chainResolved.resolved_descriptor_tracks 11 = some 0 ∧
    (lookupA chainResolved.args 0).map (fun a => a.parent_track_id) =
      some (some 1) ∧
    lookupA chainResolved.resolved_descriptor_tracks
      kDefaultDescriptorTrackUuid = some 1 ∧
    (lookupA chainState.reserved_descriptor_tracks 12).isSome = true ∧
    lookupA chainResolved.resolved_descriptor_tracks 12 = none := by
  refine ⟨?_, by decide, by decide, by decide, by decide, by decide,
    by decide⟩
  intro s uuid en
  have h := (noFuelOut 64).2.2.2 s uuid en
    (by have := implBudget_le uuid (none : Option (List Nat)); omega)
  unfold isFuelOut
  split
  · rename_i heq
    exact absurd heq h
  · rfl

end TrackEvent

namespace TrackEvent

/-! ## C9: event-name backfill -/

/-- C9: supplying a non-empty event name to `GetDescriptorTrack` backfills
the resolved row's name only while the stored name is still unset, and never
when the uuid's reservation carries a pid, a tid, or `is_counter`; a
successful backfill happens at most once — after it, a later call with any
other non-empty name returns with the state (hence the first-written name)
unchanged. -/
theorem name_backfill_first_wins (f : Nat) (s : TrackerState) (uuid : Nat)
    (en : StringId) (t : Nat) (s1 : TrackerState)
    (himpl : GetDescriptorTrackImpl f s uuid none = .ok (some t, s1))
    (hen : en ≠ kNullStringId) :
    (∀ row, s1.tracks.get? t = some row → row.name ≠ kNullStringId →
        GetDescriptorTrack (f + 1) s uuid en = .ok (some t, s1)) ∧
    (∀ row res, s1.tracks.get? t = some row → row.name = kNullStringId →
        lookupA s1.reserved_descriptor_tracks uuid = some res →
        (res.pid.isSome || res.tid.isSome || res.is_counter) = true →
        GetDescriptorTrack (f + 1) s uuid en = .ok (some t, s1)) ∧
    (∀ row res, s1.tracks.get? t = some row → row.name = kNullStringId →
        lookupA s1.reserved_descriptor_tracks uuid = some res →
        (res.pid.isSome || res.tid.isSome || res.is_counter) = false →
        GetDescriptorTrack (f + 1) s uuid en =
          .ok (some t, { s1 with tracks :=
              (s1.tracks.set t { row with name := en }) })) ∧
    (∀ row en2 g, s1.tracks.get? t = some row →
        en2 ≠ kNullStringId →
        GetDescriptorTrack (g + 2)
            { s1 with tracks := (s1.tracks.set t { row with name := en }) }
            uuid en2 =
          .ok (some t,
               { s1 with tracks :=
                   (s1.tracks.set t { row with name := en }) })) := by
  refine ⟨?_, ?_, ?_, ?_⟩
  · intro row hrow hname
    simp only [GetDescriptorTrack, himpl, hrow, if_neg hen]
    simp [hname]
  · intro row res hrow hname hres hkind
    simp only [GetDescriptorTrack, himpl, hrow, if_neg hen]
    simp [hname, hres, hkind]
  · intro row res hrow hname hres hkind
    simp only [GetDescriptorTrack, himpl, hrow, if_neg hen]
    simp [hname, hres, hkind]
  · intro row en2 g hrow hen2
    have hmemo : lookupA s1.resolved_descriptor_tracks uuid = some t :=
      impl_memoizes f s uuid none t s1 himpl
    have hlt : t < s1.tracks.length := by
      rcases List.get?_eq_some.mp hrow with ⟨h, _⟩
      exact h
    have hget : (s1.tracks.set t { row with name := en }).get? t =
        some { row with name := en } := List.get?_set_eq_of_lt _ hlt
    simp only [GetDescriptorTrack, GetDescriptorTrackImpl, hmemo, hget,
      if_neg hen2]
    simp [hen]

end TrackEvent

namespace TrackEvent

/-- Witness for `name_backfill_first_wins`: resolving child track uuid 5 with
event name 7 backfills the unset row name; a second resolve with name 9
leaves name 7 in place. -/
theorem name_backfill_first_wins_witness :
    GetDescriptorTrack 9 oneChildState 5 7 =
      .ok (some 0, { oneChildResolved with tracks :=
          (oneChildResolved.tracks.set 0
            { name := 7, kind := TrackKind.global }) }) ∧
    GetDescriptorTrack 9
        { oneChildResolved with tracks :=
            (oneChildResolved.tracks.set 0
              { name := 7, kind := TrackKind.global }) } 5 9 =
      .ok (some 0, { oneChildResolved with tracks :=
          (oneChildResolved.tracks.set 0
            { name := 7, kind := TrackKind.global }) }) := by
  have h := name_backfill_first_wins 8 oneChildState 5 7 0 oneChildResolved
    (by decide) (by decide)
  exact ⟨h.2.2.1 { name := 0, kind := .global } (childCandidate 0 0)
           (by decide) (by decide) (by decide) (by decide),
         h.2.2.2 { name := 0, kind := .global } 9 7 (by decide) (by decide)⟩

end TrackEvent

namespace TrackEvent

/-! ## C6: parentless global tracks hang under the default track -/

/-- The state component of `setTrackNameAndReturn`. -/
def setTrackNameState (s : TrackerState)
    (reservation : DescriptorTrackReservation) (track_id : Nat) :
    TrackerState :=
  if reservation.name = kNullStringId then s
  else
    match s.tracks.get? track_id with
    | none => s
    | some row =>
        { s with tracks :=
            (s.tracks.set track_id { row with name := reservation.name }) }

theorem setTrackNameAndReturn_eq (s : TrackerState)
    (r : DescriptorTrackReservation) (t : Nat) :
    setTrackNameAndReturn s r t = (t, setTrackNameState s r t) := by
  unfold setTrackNameAndReturn setTrackNameState
  split
  · rfl
  · split <;> rfl

theorem setTrackNameState_args (s : TrackerState)
    (r : DescriptorTrackReservation) (t : Nat) :
    (setTrackNameState s r t).args = s.args := by
  unfold setTrackNameState
  split
  · rfl
  · split <;> rfl

theorem setTrackNameState_resolved (s : TrackerState)
    (r : DescriptorTrackReservation) (t : Nat) :
    (setTrackNameState s r t).resolved_descriptor_tracks =
      s.resolved_descriptor_tracks := by
  unfold setTrackNameState
  split
  · rfl
  · split <;> rfl

theorem setTrackNameState_reserved (s : TrackerState)
    (r : DescriptorTrackReservation) (t : Nat) :
    (setTrackNameState s r t).reserved_descriptor_tracks =
      s.reserved_descriptor_tracks := by
  unfold setTrackNameState
  split
  · rfl
  · split <;> rfl

/-- The state produced by resolving a parentless, non-default global track
`uuid` (reservation `r`, no OS identifiers) when the default track is not
yet declared: the track's row, the lazily created default track's
reservation, row, provenance and memo entry, then the track's own
provenance and memo entry. -/
def globalResolveResult (s : TrackerState) (uuid : Nat)
    (r : DescriptorTrackReservation) : TrackerState :=
  let t := s.tracks.length
  let s2 : TrackerState := { s with tracks := s.tracks ++
      [{ name := kNullStringId,
         kind := if r.is_counter then .globalCounter else .global }] }
  let s3 : TrackerState := { s2 with reserved_descriptor_tracks :=
      s2.reserved_descriptor_tracks ++
        [(kDefaultDescriptorTrackUuid,
          childCandidate 0 default_descriptor_track_name)] }
  let s4 : TrackerState := { s3 with tracks := s3.tracks ++
      [{ name := kNullStringId, kind := .global }] }
  let s5 : TrackerState := { s4 with args := s4.args ++
      [(s3.tracks.length,
        { source_id := kDefaultDescriptorTrackUuid,
          parent_track_id := none, category := none })] }
  let s6 := setTrackNameState s5
      (childCandidate 0 default_descriptor_track_name) s3.tracks.length
  let s7 : TrackerState := { s6 with resolved_descriptor_tracks :=
      (setA s6.resolved_descriptor_tracks kDefaultDescriptorTrackUuid
        s3.tracks.length) }
  let s8 : TrackerState := { s7 with args := s7.args ++
      [(t, { source_id := uuid,
             parent_track_id := some s3.tracks.length,
             category := if r.category ≠ kNullStringId then
                 some r.category
               else none })] }
  let s9 := setTrackNameState s8 r t
  { s9 with resolved_descriptor_tracks :=
      (setA s9.resolved_descriptor_tracks uuid t) }

end TrackEvent

namespace TrackEvent

theorem childCandidate_parent_uuid (pu : Nat) (n : StringId) :
    (childCandidate pu n).parent_uuid = pu := rfl
theorem childCandidate_pid (pu : Nat) (n : StringId) :
    (childCandidate pu n).pid = none := rfl
theorem childCandidate_tid (pu : Nat) (n : StringId) :
    (childCandidate pu n).tid = none := rfl
theorem childCandidate_is_counter (pu : Nat) (n : StringId) :
    (childCandidate pu n).is_counter = false := rfl
theorem childCandidate_name (pu : Nat) (n : StringId) :
    (childCandidate pu n).name = n := rfl
theorem childCandidate_category (pu : Nat) (n : StringId) :
    (childCandidate pu n).category = kNullStringId := rfl

/-- C6: a declared track with no OS identifiers and no parent whose uuid is
not the default-track sentinel resolves (when the default track has not yet
been declared or resolved, and its two fresh row ids carry no stale args)
into a global row whose provenance parent is the lazily created default
global track's row; the default track is reserved, resolved and memoized on
this first use, and its own row has no parent. -/
theorem default_parent_for_parentless_global (f : Nat) (s : TrackerState)
    (uuid : Nat) (r : DescriptorTrackReservation)
    (hres : lookupA s.reserved_descriptor_tracks uuid = some r)
    (hpid : r.pid = none) (htid : r.tid = none) (hpar : r.parent_uuid = 0)
    (hnz : uuid ≠ kDefaultDescriptorTrackUuid)
    (hmemo : lookupA s.resolved_descriptor_tracks uuid = none)
    (hres0 : lookupA s.reserved_descriptor_tracks
      kDefaultDescriptorTrackUuid = none)
    (hmemo0 : lookupA s.resolved_descriptor_tracks
      kDefaultDescriptorTrackUuid = none)
    (hargs1 : lookupA s.args s.tracks.length = none)
    (hargs2 : lookupA s.args (s.tracks.length + 1) = none) :
    GetDescriptorTrack (f + 7) s uuid kNullStringId =
      .ok (some s.tracks.length, globalResolveResult s uuid r) ∧
    (lookupA (globalResolveResult s uuid r).args s.tracks.length).map
        (fun a => a.parent_track_id) = some (some (s.tracks.length + 1)) ∧
    lookupA (globalResolveResult s uuid r).resolved_descriptor_tracks
        kDefaultDescriptorTrackUuid = some (s.tracks.length + 1) ∧
    (lookupA (globalResolveResult s uuid r).args
        (s.tracks.length + 1)).map (fun a => a.parent_track_id) =
      some none := by
  have hL : lookupA (s.reserved_descriptor_tracks ++
      [(kDefaultDescriptorTrackUuid,
        childCandidate 0 default_descriptor_track_name)])
      kDefaultDescriptorTrackUuid =
      some (childCandidate 0 default_descriptor_track_name) :=
    lookupA_append_self _ _ _ hres0
  have hargsEq : (globalResolveResult s uuid r).args =
      (s.args ++ [(s.tracks.length + 1,
        { source_id := kDefaultDescriptorTrackUuid,
          parent_track_id := none, category := none })]) ++
      [(s.tracks.length,
        { source_id := uuid,
          parent_track_id := some (s.tracks.length + 1),
          category := if r.category ≠ kNullStringId then some r.category
            else none })] := by
    simp only [globalResolveResult, setTrackNameState_args,
      List.length_append, List.length_singleton]
  have hresEq : (globalResolveResult s uuid r).resolved_descriptor_tracks =
      (setA (setA s.resolved_descriptor_tracks kDefaultDescriptorTrackUuid
        (s.tracks.length + 1)) uuid s.tracks.length) := by
    simp only [globalResolveResult, setTrackNameState_resolved,
      List.length_append, List.length_singleton]
  refine ⟨?_, ?_, ?_, ?_⟩
  · simp only [GetDescriptorTrack, GetDescriptorTrackImpl,
      ResolveDescriptorTrack, GetOrCreateDefaultDescriptorTrack,
      ReserveDescriptorChildTrack, setTrackNameAndReturn_eq,
      globalResolveResult,
      childCandidate_parent_uuid, childCandidate_pid, childCandidate_tid,
      childCandidate_is_counter, childCandidate_name,
      childCandidate_category,
      hmemo, hres, hpar, htid, hpid, hmemo0, hres0, hL, if_pos, if_neg,
      descList, Option.getD_none, List.mem_nil_iff, if_false, if_true,
      ne_eq, not_true, not_false_iff, ite_true, ite_false, hnz]
    rfl
  · rw [hargsEq, lookupA_append_self, Option.map_some']
    rw [lookupA_append_ne _ _ _ _ (by omega)]
    exact hargs1
  · rw [hresEq, lookupA_setA_ne _ _ _ _ (fun h => hnz h.symm),
      lookupA_setA_self]
  · rw [hargsEq, lookupA_append_ne _ _ _ _ (by omega),
      lookupA_append_self _ _ _ hargs2, Option.map_some']

end TrackEvent

namespace TrackEvent

/-- The global track declared with uuid 99 and no parent. -/
def uuid99State : TrackerState :=
  (ReserveDescriptorChildTrack emptyState 99 0 0).1

/-- Witness for `default_parent_for_parentless_global`: uuid 99 resolves to
row 0, parented under the default track's fresh row 1, which itself has no
parent. -/
theorem default_parent_for_parentless_global_witness :
    GetDescriptorTrack 7 uuid99State 99 kNullStringId =
      .ok (some 0, globalResolveResult uuid99State 99 (childCandidate 0 0)) ∧
    (lookupA (globalResolveResult uuid99State 99 (childCandidate 0 0)).args
        0).map (fun a => a.parent_track_id) = some (some 1) ∧
    lookupA (globalResolveResult uuid99State 99
        (childCandidate 0 0)).resolved_descriptor_tracks
        kDefaultDescriptorTrackUuid = some 1 ∧
    (lookupA (globalResolveResult uuid99State 99 (childCandidate 0 0)).args
        1).map (fun a => a.parent_track_id) = some none :=
  default_parent_for_parentless_global 0 uuid99State 99 (childCandidate 0 0)
    (by decide) (by decide) (by decide) (by decide) (by decide) (by decide)
    (by decide) (by decide) (by decide) (by decide)

end TrackEvent

namespace TrackEvent

/-! ## C10: memoized rows always have reservations -/

/-- The invariant: every uuid in the memoization table has a reservation. -/
def ReservedInv (s : TrackerState) : Prop :=
  ∀ u t, lookupA s.resolved_descriptor_tracks u = some t →
    (lookupA s.reserved_descriptor_tracks u).isSome = true

/-- Reservations are never removed (lookups that succeed keep succeeding). -/
def reservedGrows (s s' : TrackerState) : Prop :=
  ∀ u, (lookupA s.reserved_descriptor_tracks u).isSome = true →
    (lookupA s'.reserved_descriptor_tracks u).isSome = true

theorem reservedGrows_refl (s : TrackerState) : reservedGrows s s :=
  fun _ h => h

theorem reservedGrows_trans {s1 s2 s3 : TrackerState}
    (h1 : reservedGrows s1 s2) (h2 : reservedGrows s2 s3) :
    reservedGrows s1 s3 :=
  fun u h => h2 u (h1 u h)

theorem reservedGrows_of_eq {s s' : TrackerState}
    (h : s'.reserved_descriptor_tracks = s.reserved_descriptor_tracks) :
    reservedGrows s s' := by
  intro u hu
  rw [h]
  exact hu

theorem reservedGrows_append (s s' : TrackerState) (k : Nat)
    (v : DescriptorTrackReservation)
    (h : s'.reserved_descriptor_tracks =
      s.reserved_descriptor_tracks ++ [(k, v)]) : reservedGrows s s' := by
  intro u hu
  rw [h]
  cases hl : lookupA s.reserved_descriptor_tracks u with
  | none => rw [hl] at hu; simp at hu
  | some w => rw [lookupA_append_of_some _ _ _ _ hl]; rfl

theorem inv_of_grow {s s' : TrackerState}
    (hres : s'.resolved_descriptor_tracks = s.resolved_descriptor_tracks)
    (hg : reservedGrows s s') (hinv : ReservedInv s) : ReservedInv s' := by
  intro u t hu
  rw [hres] at hu
  exact hg u (hinv u t hu)

theorem UpdateThread_fields (s : TrackerState) (tid pid : Nat) :
    (UpdateThread s tid pid).2.reserved_descriptor_tracks =
      s.reserved_descriptor_tracks ∧
    (UpdateThread s tid pid).2.resolved_descriptor_tracks =
      s.resolved_descriptor_tracks := by
  unfold UpdateThread
  split <;> exact ⟨rfl, rfl⟩

theorem GetOrCreateProcess_fields (s : TrackerState) (pid : Nat) :
    (GetOrCreateProcess s pid).2.reserved_descriptor_tracks =
      s.reserved_descriptor_tracks ∧
    (GetOrCreateProcess s pid).2.resolved_descriptor_tracks =
      s.resolved_descriptor_tracks := by
  unfold GetOrCreateProcess
  split <;> exact ⟨rfl, rfl⟩

theorem InternThreadTrack_fields (s : TrackerState) (utid : Nat) :
    (InternThreadTrack s utid).2.reserved_descriptor_tracks =
      s.reserved_descriptor_tracks ∧
    (InternThreadTrack s utid).2.resolved_descriptor_tracks =
      s.resolved_descriptor_tracks := by
  unfold InternThreadTrack
  split <;> exact ⟨rfl, rfl⟩

theorem InternProcessTrack_fields (s : TrackerState) (upid : Nat) :
    (InternProcessTrack s upid).2.reserved_descriptor_tracks =
      s.reserved_descriptor_tracks ∧
    (InternProcessTrack s upid).2.resolved_descriptor_tracks =
      s.resolved_descriptor_tracks := by
  unfold InternProcessTrack
  split <;> exact ⟨rfl, rfl⟩

theorem setTrackNameAndReturn_fields (s : TrackerState)
    (r : DescriptorTrackReservation) (t : Nat) :
    (setTrackNameAndReturn s r t).2.reserved_descriptor_tracks =
      s.reserved_descriptor_tracks ∧
    (setTrackNameAndReturn s r t).2.resolved_descriptor_tracks =
      s.resolved_descriptor_tracks ∧
    (setTrackNameAndReturn s r t).1 = t := by
  rw [setTrackNameAndReturn_eq]
  exact ⟨setTrackNameState_reserved s r t, setTrackNameState_resolved s r t,
    rfl⟩

end TrackEvent

namespace TrackEvent

theorem reservedGrows_setA (s s' : TrackerState) (k : Nat)
    (v : DescriptorTrackReservation)
    (h : s'.reserved_descriptor_tracks =
      (setA s.reserved_descriptor_tracks k v)) : reservedGrows s s' := by
  intro u hu
  rw [h]
  by_cases huk : u = k
  · subst huk
    rw [lookupA_setA_self]
    rfl
  · rw [lookupA_setA_ne _ _ _ _ huk]
    exact hu

/-- `ReserveDescriptorChildTrack` only adds reservations and never touches
the memo table. -/
theorem ReserveChild_grows (s : TrackerState) (uuid pu : Nat)
    (n : StringId) :
    reservedGrows s (ReserveDescriptorChildTrack s uuid pu n).1 ∧
    (ReserveDescriptorChildTrack s uuid pu
      n).1.resolved_descriptor_tracks = s.resolved_descriptor_tracks := by
  unfold ReserveDescriptorChildTrack
  cases hl : lookupA s.reserved_descriptor_tracks uuid with
  | none =>
      simp only [hl]
      constructor
      · exact reservedGrows_append s _ uuid (childCandidate pu n) rfl
      · trivial
  | some ex =>
      simp only [hl]
      split
      · exact ⟨reservedGrows_refl s, rfl⟩
      · exact ⟨reservedGrows_refl s, rfl⟩

/-- The resolution engine only adds reservations and only memoizes uuids
whose reservation lookup succeeded, so `ReservedInv` is preserved and
reservations only accumulate. -/
theorem resolutionInv : ∀ fuel : Nat,
    (∀ s uuid d r s1, GetDescriptorTrackImpl fuel s uuid d = .ok (r, s1) →
      reservedGrows s s1 ∧ (ReservedInv s → ReservedInv s1)) ∧
    (∀ s uuid res d t s1,
      ResolveDescriptorTrack fuel s uuid res d = .ok (t, s1) →
      reservedGrows s s1 ∧ (ReservedInv s → ReservedInv s1)) ∧
    (∀ s t s1, GetOrCreateDefaultDescriptorTrack fuel s = .ok (t, s1) →
      reservedGrows s s1 ∧ (ReservedInv s → ReservedInv s1)) ∧
    (∀ s uuid en r s1, GetDescriptorTrack fuel s uuid en = .ok (r, s1) →
      reservedGrows s s1 ∧ (ReservedInv s → ReservedInv s1)) := by
  intro fuel
  induction fuel with
  | zero =>
      refine ⟨?_, ?_, ?_, ?_⟩
      · intro s uuid d r s1 h
        simp [GetDescriptorTrackImpl] at h
      · intro s uuid res d t s1 h
        simp [ResolveDescriptorTrack] at h
      · intro s t s1 h
        simp [GetOrCreateDefaultDescriptorTrack] at h
      · intro s uuid en r s1 h
        simp [GetDescriptorTrack] at h
  | succ f ih =>
      obtain ⟨ihI, ihR, ihD, ihG⟩ := ih
      have triv : ∀ s : TrackerState,
          reservedGrows s s ∧ (ReservedInv s → ReservedInv s) :=
        fun s => ⟨reservedGrows_refl s, fun hi => hi⟩
      have lift : ∀ (sA sB s : TrackerState),
          sB.reserved_descriptor_tracks = sA.reserved_descriptor_tracks →
          sB.resolved_descriptor_tracks = sA.resolved_descriptor_tracks →
          reservedGrows s sA → (ReservedInv s → ReservedInv sA) →
          reservedGrows s sB ∧ (ReservedInv s → ReservedInv sB) :=
        fun sA sB s e1 e2 hgA hiA =>
          ⟨reservedGrows_trans hgA (reservedGrows_of_eq e1),
           fun hv => inv_of_grow e2 (reservedGrows_of_eq e1) (hiA hv)⟩
      refine ⟨?_, ?_, ?_, ?_⟩
      · -- GetDescriptorTrackImpl
        intro s uuid d r s1 h
        simp only [GetDescriptorTrackImpl] at h
        cases hm : lookupA s.resolved_descriptor_tracks uuid with
        | some tid =>
            simp only [hm, Except.ok.injEq, Prod.mk.injEq] at h
            obtain ⟨h1, h2⟩ := h
            subst h2
            exact triv s
        | none =>
            simp only [hm] at h
            cases hres : lookupA s.reserved_descriptor_tracks uuid with
            | none =>
                simp only [hres, Except.ok.injEq, Prod.mk.injEq] at h
                obtain ⟨h1, h2⟩ := h
                subst h2
                exact triv s
            | some res =>
                simp only [hres] at h
                cases hr : ResolveDescriptorTrack f s uuid res d with
                | error e => simp [hr] at h
                | ok p =>
                    obtain ⟨tid2, s2⟩ := p
                    simp only [hr, Except.ok.injEq, Prod.mk.injEq] at h
                    obtain ⟨h1, h2⟩ := h
                    subst h2
                    have hR := ihR s uuid res d tid2 s2 hr
                    refine ⟨reservedGrows_trans hR.1
                      (reservedGrows_of_eq rfl), ?_⟩
                    intro hinv u t' hu
                    simp only at hu
                    by_cases huu : u = uuid
                    · subst huu
                      exact hR.1 u (by rw [hres]; rfl)
                    · rw [lookupA_setA_ne _ _ _ _ huu] at hu
                      exact hR.2 hinv u t' hu
      · -- ResolveDescriptorTrack
        intro s uuid res d t s1 h
        simp only [ResolveDescriptorTrack] at h
        split at h
        · -- the parent step errored out
          simp at h
        · rename_i ptid sp heq
          have hps : reservedGrows s sp ∧
              (ReservedInv s → ReservedInv sp) := by
            split at heq
            · split at heq
              · simp only [Except.ok.injEq, Prod.mk.injEq] at heq
                obtain ⟨-, h2⟩ := heq
                subst h2
                exact triv s
              · split at heq
                · simp only [Except.ok.injEq, Prod.mk.injEq] at heq
                  obtain ⟨-, h2⟩ := heq
                  subst h2
                  exact triv s
                · exact ihI s res.parent_uuid _ ptid sp heq
            · simp only [Except.ok.injEq, Prod.mk.injEq] at heq
              obtain ⟨-, h2⟩ := heq
              subst h2
              exact triv s
          clear heq
          have finishG : ∀ (sMid : TrackerState) (tnew : Nat),
              reservedGrows s sMid → (ReservedInv s → ReservedInv sMid) →
              (Except.ok (setTrackNameAndReturn sMid res tnew) :
                Except ResolutionError (Nat × TrackerState)) =
                Except.ok (t, s1) →
              reservedGrows s s1 ∧ (ReservedInv s → ReservedInv s1) := by
            intro sMid tnew hgM hiM hok
            have hpair := Except.ok.inj hok
            have hs1 : s1 = (setTrackNameAndReturn sMid res tnew).2 :=
              (congrArg Prod.snd hpair).symm
            subst hs1
            exact lift sMid _ s (setTrackNameAndReturn_fields _ _ _).1
              (setTrackNameAndReturn_fields _ _ _).2.1 hgM hiM
          cases htid2 : res.tid with
          | some tid =>
              simp only [htid2] at h
              have hf2 := UpdateThread_fields sp tid (res.pid.getD 0)
              cases hlu : lookupA (UpdateThread sp tid
                  (res.pid.getD 0)).2.descriptor_uuids_by_utid
                  (UpdateThread sp tid (res.pid.getD 0)).1 with
              | none =>
                  simp only [hlu] at h
                  refine finishG _ _ ?_ ?_ h
                  · exact reservedGrows_trans hps.1 (reservedGrows_of_eq
                      (by rw [(InternThreadTrack_fields _ _).1]
                          exact hf2.1))
                  · intro hv
                    exact inv_of_grow
                      (by rw [(InternThreadTrack_fields _ _).2]
                          exact hf2.2)
                      (reservedGrows_of_eq
                        (by rw [(InternThreadTrack_fields _ _).1]
                            exact hf2.1)) (hps.2 hv)
              | some old_uuid =>
                  simp only [hlu] at h
                  have hf3 := UpdateThread_fields (StartNewThread
                    (UpdateThread sp tid (res.pid.getD 0)).2 tid).2 tid
                    (res.pid.getD 0)
                  split at h
                  · refine finishG _ _ ?_ ?_ h
                    · refine reservedGrows_trans hps.1
                        (reservedGrows_of_eq ?_)
                      rw [(InternThreadTrack_fields _ _).1]
                      show (UpdateThread (StartNewThread (UpdateThread sp
                        tid (res.pid.getD 0)).2 tid).2 tid
                        (res.pid.getD 0)).2.reserved_descriptor_tracks = _
                      rw [hf3.1]
                      exact hf2.1
                    · intro hv
                      refine inv_of_grow ?_ (reservedGrows_of_eq ?_)
                        (hps.2 hv)
                      · rw [(InternThreadTrack_fields _ _).2]
                        show (UpdateThread (StartNewThread (UpdateThread sp
                          tid (res.pid.getD 0)).2 tid).2 tid
                          (res.pid.getD 0)).2.resolved_descriptor_tracks = _
                        rw [hf3.2]
                        exact hf2.2
                      · rw [(InternThreadTrack_fields _ _).1]
                        show (UpdateThread (StartNewThread (UpdateThread sp
                          tid (res.pid.getD 0)).2 tid).2 tid
                          (res.pid.getD 0)).2.reserved_descriptor_tracks = _
                        rw [hf3.1]
                        exact hf2.1
                  · simp at h
          | none =>
              simp only [htid2] at h
              cases hpid2 : res.pid with
              | some pid =>
                  simp only [hpid2] at h
                  have hf2 := GetOrCreateProcess_fields sp pid
                  cases hlu : lookupA (GetOrCreateProcess sp
                      pid).2.descriptor_uuids_by_upid
                      (GetOrCreateProcess sp pid).1 with
                  | none =>
                      simp only [hlu] at h
                      refine finishG _ _ ?_ ?_ h
                      · exact reservedGrows_trans hps.1
                          (reservedGrows_of_eq
                            (by rw [(InternProcessTrack_fields _ _).1]
                                exact hf2.1))
                      · intro hv
                        exact inv_of_grow
                          (by rw [(InternProcessTrack_fields _ _).2]
                              exact hf2.2)
                          (reservedGrows_of_eq
                            (by rw [(InternProcessTrack_fields _ _).1]
                                exact hf2.1)) (hps.2 hv)
                  | some old_uuid =>
                      simp only [hlu] at h
                      refine finishG _ _ ?_ ?_ h
                      · exact reservedGrows_trans hps.1
                          (reservedGrows_of_eq
                            (by rw [(InternProcessTrack_fields _ _).1]
                                exact hf2.1))
                      · intro hv
                        exact inv_of_grow
                          (by rw [(InternProcessTrack_fields _ _).2]
                              exact hf2.2)
                          (reservedGrows_of_eq
                            (by rw [(InternProcessTrack_fields _ _).1]
                                exact hf2.1)) (hps.2 hv)
              | none =>
                  simp only [hpid2] at h
                  have trivUp : ∀ sMid : TrackerState,
                      sMid.reserved_descriptor_tracks =
                        sp.reserved_descriptor_tracks →
                      sMid.resolved_descriptor_tracks =
                        sp.resolved_descriptor_tracks →
                      reservedGrows s sMid ∧
                        (ReservedInv s → ReservedInv sMid) :=
                    fun sMid e1 e2 => lift sp sMid s e1 e2 hps.1 hps.2
                  cases hpt : ptid with
                  | some pt =>
                      simp only [hpt] at h
                      cases hrow : sp.tracks.get? pt with
                      | none =>
                          simp only [hrow] at h
                          refine finishG _ _ ?_ ?_ h
                          · exact (trivUp _ rfl rfl).1
                          · exact (trivUp _ rfl rfl).2
                      | some row =>
                          simp only [hrow] at h
                          cases hkind : row.kind with
                          | thread utid =>
                              simp only [hkind] at h
                              refine finishG _ _ ?_ ?_ h
                              · exact (trivUp _ rfl rfl).1
                              · exact (trivUp _ rfl rfl).2
                          | process upid =>
                              simp only [hkind] at h
                              refine finishG _ _ ?_ ?_ h
                              · exact (trivUp _ rfl rfl).1
                              · exact (trivUp _ rfl rfl).2
                          | global =>
                              simp only [hkind] at h
                              refine finishG _ _ ?_ ?_ h
                              · exact (trivUp _ rfl rfl).1
                              · exact (trivUp _ rfl rfl).2
                          | globalCounter =>
                              simp only [hkind] at h
                              refine finishG _ _ ?_ ?_ h
                              · exact (trivUp _ rfl rfl).1
                              · exact (trivUp _ rfl rfl).2
                          | threadCounter utid =>
                              simp only [hkind] at h
                              refine finishG _ _ ?_ ?_ h
                              · exact (trivUp _ rfl rfl).1
                              · exact (trivUp _ rfl rfl).2
                          | processCounter upid =>
                              simp only [hkind] at h
                              refine finishG _ _ ?_ ?_ h
                              · exact (trivUp _ rfl rfl).1
                              · exact (trivUp _ rfl rfl).2
                  | none =>
                      simp only [hpt, if_true] at h
                      by_cases hu0 : uuid = kDefaultDescriptorTrackUuid
                      · rw [if_neg (fun hk => hk hu0)] at h
                        refine finishG _ _ ?_ ?_ h
                        · exact (trivUp _ rfl rfl).1
                        · exact (trivUp _ rfl rfl).2
                      · rw [if_pos hu0] at h
                        by_cases hmem : kDefaultDescriptorTrackUuid ∈
                            descList d
                        · rw [if_pos hmem] at h
                          refine finishG _ _ ?_ ?_ h
                          · exact (trivUp _ rfl rfl).1
                          · exact (trivUp _ rfl rfl).2
                        · rw [if_neg hmem] at h
                          cases hdef : GetOrCreateDefaultDescriptorTrack f
                              { sp with tracks := sp.tracks ++
                                  [{ name := kNullStringId,
                                     kind := if res.is_counter then
                                         TrackKind.globalCounter
                                       else TrackKind.global }] } with
                          | error e =>
                              simp only [hdef] at h
                              simp at h
                          | ok q =>
                              obtain ⟨dt, s3⟩ := q
                              simp only [hdef] at h
                              have hD := ihD _ dt s3 hdef
                              have hg3 : reservedGrows s s3 :=
                                reservedGrows_trans (reservedGrows_trans
                                  hps.1 (reservedGrows_of_eq rfl)) hD.1
                              have hi3 : ReservedInv s → ReservedInv s3 :=
                                fun hv => hD.2 (inv_of_grow rfl
                                  (reservedGrows_of_eq rfl) (hps.2 hv))
                              refine finishG _ _ ?_ ?_ h
                              · exact reservedGrows_trans hg3
                                  (reservedGrows_of_eq rfl)
                              · intro hv
                                exact inv_of_grow rfl
                                  (reservedGrows_of_eq rfl) (hi3 hv)
      · -- GetOrCreateDefaultDescriptorTrack
        intro s t s1 h
        simp only [GetOrCreateDefaultDescriptorTrack] at h
        split at h
        · simp at h
        · rename_i tid sA heq
          simp only [Except.ok.injEq, Prod.mk.injEq] at h
          obtain ⟨h2, h3⟩ := h
          subst h3
          exact ihG s _ _ _ _ heq
        · rename_i sA heq
          split at h
          · simp at h
          · rename_i tid2 sB heq2
            simp only [Except.ok.injEq, Prod.mk.injEq] at h
            obtain ⟨h3, h4⟩ := h
            subst h4
            have hA := ihG s _ _ _ _ heq
            have hB := ihG _ _ _ _ _ heq2
            have hRes := ReserveChild_grows sA kDefaultDescriptorTrackUuid 0
              default_descriptor_track_name
            refine ⟨reservedGrows_trans (reservedGrows_trans
              hA.1 hRes.1) hB.1, ?_⟩
            intro hv
            exact hB.2 (inv_of_grow hRes.2 hRes.1 (hA.2 hv))
          · simp at h
      · -- GetDescriptorTrack
        intro s uuid en r s1 h
        simp only [GetDescriptorTrack] at h
        split at h
        · simp at h
        · rename_i sA heq
          simp only [Except.ok.injEq, Prod.mk.injEq] at h
          obtain ⟨h2, h3⟩ := h
          subst h3
          exact ihI s uuid none _ sA heq
        · rename_i tid sA heq
          have hA := ihI s uuid none _ sA heq
          by_cases hen : en = kNullStringId
          · rw [if_pos hen] at h
            simp only [Except.ok.injEq, Prod.mk.injEq] at h
            obtain ⟨h2, h3⟩ := h
            subst h3
            exact hA
          · rw [if_neg hen] at h
            cases hrow : sA.tracks.get? tid with
            | none =>
                rw [hrow] at h
                simp at h
            | some row =>
                simp only [hrow] at h
                by_cases hname : row.name = kNullStringId
                · rw [if_neg (fun hk => hk hname)] at h
                  cases hres2 : lookupA sA.reserved_descriptor_tracks
                      uuid with
                  | none => simp [hres2] at h
                  | some res2 =>
                      simp only [hres2] at h
                      by_cases hkind : (res2.pid.isSome ||
                          res2.tid.isSome || res2.is_counter) = true
                      · rw [if_pos hkind] at h
                        simp only [Except.ok.injEq, Prod.mk.injEq] at h
                        obtain ⟨h2, h3⟩ := h
                        subst h3
                        exact hA
                      · rw [if_neg hkind] at h
                        simp only [Except.ok.injEq, Prod.mk.injEq] at h
                        obtain ⟨h2, h3⟩ := h
                        subst h3
                        exact lift sA _ s rfl rfl hA.1 hA.2
                · rw [if_pos hname] at h
                  simp only [Except.ok.injEq, Prod.mk.injEq] at h
                  obtain ⟨h2, h3⟩ := h
                  subst h3
                  exact hA

end TrackEvent
namespace TrackEvent

/-- With a null event name (as in all internal calls), no function of the
resolution engine ever returns the `checkFail` outcome: the name-backfill
branch guarded by the `PERFETTO_CHECK` is never reached. -/
theorem noCheckFail : ∀ fuel : Nat,
    (∀ s uuid d, GetDescriptorTrackImpl fuel s uuid d ≠
      .error .checkFail) ∧
    (∀ s uuid res d, ResolveDescriptorTrack fuel s uuid res d ≠
      .error .checkFail) ∧
    (∀ s, GetOrCreateDefaultDescriptorTrack fuel s ≠ .error .checkFail) ∧
    (∀ s uuid, GetDescriptorTrack fuel s uuid kNullStringId ≠
      .error .checkFail) := by
  intro fuel
  induction fuel with
  | zero =>
      refine ⟨?_, ?_, ?_, ?_⟩
      · intro s uuid d h
        simp [GetDescriptorTrackImpl] at h
      · intro s uuid res d h
        simp [ResolveDescriptorTrack] at h
      · intro s h
        simp [GetOrCreateDefaultDescriptorTrack] at h
      · intro s uuid h
        simp [GetDescriptorTrack] at h
  | succ f ih =>
      obtain ⟨ihI, ihR, ihD, ihG⟩ := ih
      refine ⟨?_, ?_, ?_, ?_⟩
      · intro s uuid d h
        simp only [GetDescriptorTrackImpl] at h
        split at h
        · simp at h
        · split at h
          · simp at h
          · split at h
            · rename_i e heq
              simp only [Except.error.injEq] at h
              subst h
              exact ihR s uuid _ d heq
            · simp at h
      · intro s uuid res d h
        simp only [ResolveDescriptorTrack] at h
        split at h
        · rename_i e heq
          simp only [Except.error.injEq] at h
          subst h
          split at heq
          · split at heq
            · simp at heq
            · split at heq
              · simp at heq
              · exact ihI s res.parent_uuid _ heq
          · simp at heq
        · split at h
          · split at h
            · simp at h
            · split at h
              · simp at h
              · simp at h
          · split at h
            · split at h
              · simp at h
              · simp at h
            · split at h
              · rename_i e heq2
                simp only [Except.error.injEq] at h
                subst h
                split at heq2
                · simp at heq2
                · split at heq2
                  · split at heq2
                    · split at heq2
                      · simp at heq2
                      · split at heq2
                        · rename_i e2 heq3
                          simp only [Except.error.injEq] at heq2
                          subst heq2
                          exact ihD _ heq3
                        · simp at heq2
                    · simp at heq2
                  · simp at heq2
              · simp at h
      · intro s h
        simp only [GetOrCreateDefaultDescriptorTrack] at h
        split at h
        · rename_i e heq
          simp only [Except.error.injEq] at h
          subst h
          exact ihG _ _ heq
        · simp at h
        · split at h
          · rename_i e heq
            simp only [Except.error.injEq] at h
            subst h
            exact ihG _ _ heq
          · simp at h
          · simp at h
      · intro s uuid h
        simp only [GetDescriptorTrack] at h
        split at h
        · rename_i e heq
          simp only [Except.error.injEq] at h
          subst h
          exact ihI s uuid none heq
        · simp at h
        · simp at h

end TrackEvent

namespace TrackEvent

/-- Classifier for the `PERFETTO_CHECK` failure outcome of
`GetDescriptorTrack`. -/
def isCheckFail : Except ResolutionError (Option Nat × TrackerState) → Bool
  | .error .checkFail => true
  | _ => false

theorem lookupA_map_fst {α : Type} (l : List (Nat × α))
    (f : Nat × α → Nat × α) (hf : ∀ p, (f p).1 = p.1) (k : Nat) :
    (lookupA (l.map f) k).isSome = (lookupA l k).isSome := by
  induction l with
  | nil => rfl
  | cons p rest ih =>
      simp only [List.map_cons, lookupA]
      rw [hf p]
      by_cases hk : p.1 = k
      · simp [hk]
      · simp [hk, ih]

/-- The four reserve operations keep the memo table untouched and only grow
the reservation map. -/
theorem reserve_ops_grow (s : TrackerState) :
    (∀ uuid name pid ts,
      reservedGrows s (ReserveDescriptorProcessTrack s uuid name pid
        ts).1 ∧
      (ReserveDescriptorProcessTrack s uuid name pid
        ts).1.resolved_descriptor_tracks = s.resolved_descriptor_tracks) ∧
    (∀ uuid pu name pid tid ts,
      reservedGrows s (ReserveDescriptorThreadTrack s uuid pu name pid tid
        ts).1 ∧
      (ReserveDescriptorThreadTrack s uuid pu name pid tid
        ts).1.resolved_descriptor_tracks = s.resolved_descriptor_tracks) ∧
    (∀ uuid pu name cat um inc seq,
      reservedGrows s (ReserveDescriptorCounterTrack s uuid pu name cat um
        inc seq).1 ∧
      (ReserveDescriptorCounterTrack s uuid pu name cat um inc
        seq).1.resolved_descriptor_tracks =
        s.resolved_descriptor_tracks) := by
  refine ⟨?_, ?_, ?_⟩
  · intro uuid name pid ts
    unfold ReserveDescriptorProcessTrack
    cases hl : lookupA s.reserved_descriptor_tracks uuid with
    | none =>
        simp only [hl]
        constructor
        · exact reservedGrows_append s _ uuid _ rfl
        · trivial
    | some ex =>
        simp only [hl]
        split
        · exact ⟨reservedGrows_setA s _ uuid _ rfl, rfl⟩
        · exact ⟨reservedGrows_refl s, rfl⟩
  · intro uuid pu name pid tid ts
    unfold ReserveDescriptorThreadTrack
    cases hl : lookupA s.reserved_descriptor_tracks uuid with
    | none =>
        simp only [hl]
        constructor
        · exact reservedGrows_append s _ uuid _ rfl
        · trivial
    | some ex =>
        simp only [hl]
        split
        · exact ⟨reservedGrows_setA s _ uuid _ rfl, rfl⟩
        · exact ⟨reservedGrows_refl s, rfl⟩
  · intro uuid pu name cat um inc seq
    unfold ReserveDescriptorCounterTrack
    cases hl : lookupA s.reserved_descriptor_tracks uuid with
    | none =>
        simp only [hl]
        constructor
        · exact reservedGrows_append s _ uuid _ rfl
        · trivial
    | some ex =>
        simp only [hl]
        split
        · exact ⟨reservedGrows_refl s, rfl⟩
        · exact ⟨reservedGrows_refl s, rfl⟩

end TrackEvent

namespace TrackEvent

theorem convert_preserves_inv (s : TrackerState) (uuid seq : Nat) (v : Int)
    (hinv : ReservedInv s) :
    ReservedInv (ConvertToAbsoluteCounterValue s uuid seq v).2 := by
  unfold ConvertToAbsoluteCounterValue
  cases hl : lookupA s.reserved_descriptor_tracks uuid with
  | none => exact hinv
  | some r =>
      simp only [hl]
      split
      · exact hinv
      · split
        · split
          · exact hinv
          · refine inv_of_grow ?_ ?_ hinv
            · rfl
            · exact reservedGrows_setA s _ uuid _ rfl
        · exact hinv

theorem clear_preserves_inv (s : TrackerState) (seq : Nat)
    (hinv : ReservedInv s) :
    ReservedInv (OnIncrementalStateCleared s seq) := by
  intro u t hu
  have hu' : lookupA s.resolved_descriptor_tracks u = some t := hu
  have hf : ∀ p : Nat × DescriptorTrackReservation,
      ((fun p : Nat × DescriptorTrackReservation =>
        if p.2.is_counter && p.2.is_incremental &&
           p.2.packet_sequence_id == seq then
          (p.1, { p.2 with latest_value := 0 })
        else p) p).1 = p.1 := by
    intro p
    dsimp only
    split <;> rfl
  exact (lookupA_map_fst s.reserved_descriptor_tracks _ hf u).trans
    (hinv u t hu')

theorem getTrack_checkSuccess (f : Nat) (s : TrackerState) (uuid : Nat)
    (en : StringId) (hinv : ReservedInv s) :
    isCheckFail (GetDescriptorTrack f s uuid en) = false := by
  cases f with
  | zero => rfl
  | succ f =>
      cases hx : GetDescriptorTrackImpl f s uuid none with
      | error e =>
          have hne : e ≠ ResolutionError.checkFail := by
            intro hh
            exact (noCheckFail f).1 s uuid none (by rw [hx, hh])
          simp only [GetDescriptorTrack, hx]
          cases e with
          | checkFail => exact absurd rfl hne
          | fuelOut => rfl
          | derefFail => rfl
      | ok p =>
          obtain ⟨ro, sA⟩ := p
          cases ro with
          | none => simp only [GetDescriptorTrack, hx]; rfl
          | some tid =>
              simp only [GetDescriptorTrack, hx]
              by_cases hen : en = kNullStringId
              · rw [if_pos hen]; rfl
              · rw [if_neg hen]
                cases hrow : sA.tracks.get? tid with
                | none => simp only [hrow]; rfl
                | some row =>
                    simp only [hrow]
                    by_cases hname : row.name = kNullStringId
                    · rw [if_neg (fun hk => hk hname)]
                      have hmemo := impl_memoizes f s uuid none tid sA hx
                      have hinvA : ReservedInv sA :=
                        ((resolutionInv f).1 s uuid none (some tid) sA
                          hx).2 hinv
                      have hres := hinvA uuid tid hmemo
                      cases hres2 :
                          lookupA sA.reserved_descriptor_tracks uuid with
                      | none => rw [hres2] at hres; simp at hres
                      | some resv =>
                          simp only [hres2]
                          split <;> rfl
                    · rw [if_pos hname]; rfl

end TrackEvent

namespace TrackEvent

/-- C10: the tracker maintains the invariant that every uuid in the
memoized resolved-track table also has an entry in the reservation store:
every public operation (the four reserve calls, counter-value conversion,
incremental-state clearing, and track resolution) preserves it, and as a
consequence the reservation lookup asserted by `PERFETTO_CHECK` in the
name-backfill path of `GetDescriptorTrack` (line 177) never fails. -/
theorem resolved_uuids_have_reservations (s : TrackerState)
    (hinv : ReservedInv s) :
    (∀ uuid name pid ts,
      ReservedInv (ReserveDescriptorProcessTrack s uuid name pid ts).1) ∧
    (∀ uuid pu name pid tid ts,
      ReservedInv (ReserveDescriptorThreadTrack s uuid pu name pid tid
        ts).1) ∧
    (∀ uuid pu name cat um inc seq,
      ReservedInv (ReserveDescriptorCounterTrack s uuid pu name cat um inc
        seq).1) ∧
    (∀ uuid pu name,
      ReservedInv (ReserveDescriptorChildTrack s uuid pu name).1) ∧
    (∀ uuid seq v,
      ReservedInv (ConvertToAbsoluteCounterValue s uuid seq v).2) ∧
    (∀ seq, ReservedInv (OnIncrementalStateCleared s seq)) ∧
    (∀ f uuid en r s1, GetDescriptorTrack f s uuid en = .ok (r, s1) →
      ReservedInv s1) ∧
    (∀ f uuid en, isCheckFail (GetDescriptorTrack f s uuid en) =
      false) := by
  refine ⟨?_, ?_, ?_, ?_, ?_, ?_, ?_, ?_⟩
  · intro uuid name pid ts
    obtain ⟨hg, he⟩ := (reserve_ops_grow s).1 uuid name pid ts
    exact inv_of_grow he hg hinv
  · intro uuid pu name pid tid ts
    obtain ⟨hg, he⟩ := (reserve_ops_grow s).2.1 uuid pu name pid tid ts
    exact inv_of_grow he hg hinv
  · intro uuid pu name cat um inc seq
    obtain ⟨hg, he⟩ := (reserve_ops_grow s).2.2 uuid pu name cat um inc seq
    exact inv_of_grow he hg hinv
  · intro uuid pu name
    obtain ⟨hg, he⟩ := ReserveChild_grows s uuid pu name
    exact inv_of_grow he hg hinv
  · intro uuid seq v
    exact convert_preserves_inv s uuid seq v hinv
  · intro seq
    exact clear_preserves_inv s seq hinv
  · intro f uuid en r s1 h
    exact ((resolutionInv f).2.2.2 s uuid en r s1 h).2 hinv
  · intro f uuid en
    exact getTrack_checkSuccess f s uuid en hinv

/-- The invariant theorem instantiated at the empty tracker state. -/
theorem resolved_uuids_have_reservations_witness :
    ReservedInv (ReserveDescriptorChildTrack emptyState 1 2 0).1 ∧
    isCheckFail (GetDescriptorTrack 9 emptyState 5 7) = false := by
  have hinv0 : ReservedInv emptyState := by
    intro u t hu
    simp [emptyState, lookupA] at hu
  have h := resolved_uuids_have_reservations emptyState hinv0
  exact ⟨h.2.2.2.1 1 2 0, h.2.2.2.2.2.2.2 9 5 7⟩

end TrackEvent
